/-
Verification of the flash-orchestration app (browser OnePlus kernel flasher).
Shallow embedding of the TypeScript sources:
  utils/version.ts, services/github.ts, services/download.ts,
  services/fastboot.ts, services/adb.ts, App.tsx (the flow controller).
Bytes are Nat, byte buffers are lists, async control flow is embedded as a
resumption-style program type whose traces we reason about.
-/
import Mathlib

namespace Flasher

/-! Version parsing (utils/version.ts) -/

structure ParsedVersion where
  modelCode : String
  version : String
  regionCode : String
  fullVersion : String
deriving Repr, DecidableEq

/-- Character class of the regex fragment [A-Z0-9]. -/
def upperAlnumChar (c : Char) : Bool := c.isUpper || c.isDigit

/-- Greedy match of the regex fragment \d+ at the head of the input:
returns the (nonempty) digit run and the remainder, or none. -/
def digits1 (cs : List Char) : Option (List Char × List Char) :=
  let ds := cs.takeWhile Char.isDigit
  if ds.isEmpty then none else some (ds, cs.dropWhile Char.isDigit)

/-- Greedy match of the regex fragment [A-Z0-9]+ at the head of the input. -/
def region1 (cs : List Char) : Option (List Char × List Char) :=
  let ds := cs.takeWhile upperAlnumChar
  if ds.isEmpty then none else some (ds, cs.dropWhile upperAlnumChar)

/-- Match of one literal character at the head of the input. -/
def expectChar (c : Char) : List Char → Option (List Char)
  | x :: rest => if x = c then some rest else none
  | [] => none

/-- Match of the regex fragment \d+\.\d+\.\d+\.\d+ (the version group):
returns the matched characters and the remainder. -/
def parseDots (r4 : List Char) : Option (List Char × List Char) :=
  match digits1 r4 with
  | none => none
  | some (a, r5) =>
    match expectChar '.' r5 with
    | none => none
    | some r6 =>
      match digits1 r6 with
      | none => none
      | some (b, r7) =>
        match expectChar '.' r7 with
        | none => none
        | some r8 =>
          match digits1 r8 with
          | none => none
          | some (c, r9) =>
            match expectChar '.' r9 with
            | none => none
            | some r10 =>
              match digits1 r10 with
              | none => none
              | some (d, r11) => some (a ++ '.' :: b ++ '.' :: c ++ '.' :: d, r11)

/-- Match of the regex fragment \([A-Z0-9]+\)$ (the region group up to the
anchored end of input): returns the captured region characters. -/
def parseRegion (r11 : List Char) : Option (List Char) :=
  match expectChar '(' r11 with
  | none => none
  | some r12 =>
    match region1 r12 with
    | none => none
    | some (reg, r13) =>
      match expectChar ')' r13 with
      | some [] => some reg
      | _ => none

/-- Anchored match of the regex in parseVersion,
regex ^(CPH\d+)_(\d+\.\d+\.\d+\.\d+)\(([A-Z0-9]+)\)$ from utils/version.ts,
as a sequential matcher: the literal prefix CPH, the model digits, an
underscore, the four-part version, and the region in parentheses, with
nothing allowed after the closing one. Greedy scanning of each repeated class
is equivalent to the regex because each class excludes the literal that
follows it. Returns the three capture groups. -/
def parseGroups (cs : List Char) : Option (List Char × List Char × List Char) :=
  match expectChar 'C' cs with
  | none => none
  | some r0 =>
    match expectChar 'P' r0 with
    | none => none
    | some r1 =>
      match expectChar 'H' r1 with
      | none => none
      | some r2 =>
        match digits1 r2 with
        | none => none
        | some (m, r3) =>
          match expectChar '_' r3 with
          | none => none
          | some r4 =>
            match parseDots r4 with
            | none => none
            | some (v, r11) =>
              match parseRegion r11 with
              | none => none
              | some reg => some ('C' :: 'P' :: 'H' :: m, (v, reg))

/-- parseVersion from utils/version.ts: match the version string against the
anchored regex; on success return the captured groups plus the original
string as fullVersion, otherwise null. -/
def parseVersion (versionString : String) : Option ParsedVersion :=
  match parseGroups versionString.toList with
  | none => none
  | some (m, v, reg) =>
    some ⟨String.mk m, String.mk v, String.mk reg, versionString⟩

/-- isOnePlusOpen from utils/version.ts. -/
def isOnePlusOpen (modelCode : String) : Bool := modelCode == "CPH2551"

/-- versionsMatch from utils/version.ts. -/
def versionsMatch (deviceVersion releaseTag : String) : Bool :=
  deviceVersion.trim == releaseTag.trim

/-- Render of a value with one decimal digit, num/den rounded half-up.
Models the toFixed(1) display rounding of formatFileSize; these strings are
display-only and no claim depends on their exact value. -/
def oneDecimal (num den : Nat) : String :=
  let t := (num * 10 + den / 2) / den
  toString (t / 10) ++ "." ++ toString (t % 10)

/-- formatFileSize from utils/version.ts (display-only float rounding is
modelled with integer round-half-up). -/
def formatFileSize (bytes : Nat) : String :=
  if bytes < 1024 then toString bytes ++ " B"
  else if bytes < 1024 * 1024 then oneDecimal bytes 1024 ++ " KB"
  else oneDecimal bytes (1024 * 1024) ++ " MB"

/-! GitHub service (services/github.ts) -/

structure GitHubAsset where
  name : String
  browser_download_url : String
  size : Nat
deriving Repr, DecidableEq

structure GitHubRelease where
  tag_name : String
  name : String
  published_at : String
  assets : List GitHubAsset
deriving Repr, DecidableEq

/-- Outcome of the one network fetch that fetchReleases performs, as seen by
the service: a parsed release list, a non-success HTTP response carrying the
numeric status and status text, or a thrown transport error message. -/
inductive NetOutcome where
  | success (releases : List GitHubRelease)
  | httpError (status : Nat) (statusText : String)
  | netThrow (msg : String)
deriving Repr, DecidableEq

/-- GitHubService.fetchReleases from services/github.ts, with the releasesCache
field made an explicit argument and result. Returns the call result, the new
cache value, and whether a network fetch was performed on this call. A non-null
cache is returned immediately (a JS array, even empty, is truthy); otherwise
one fetch runs, and the cache is assigned only after it fully succeeds. -/
def fetchReleases (cache : Option (List GitHubRelease)) (net : NetOutcome) :
    Except String (List GitHubRelease) × Option (List GitHubRelease) × Bool :=
  match cache with
  | some cached => (.ok cached, some cached, false)
  | none =>
    match net with
    | .success releases => (.ok releases, some releases, true)
    | .httpError status statusText =>
      (.error ("Failed to fetch releases: " ++ toString status ++ " " ++ statusText),
        none, true)
    | .netThrow msg => (.error msg, none, true)

/-- GitHubService.findMatchingRelease from services/github.ts: fetch (or reuse
the cached) release list, then take the first release whose tag_name equals the
firmware version string exactly. -/
def findMatchingRelease (cache : Option (List GitHubRelease)) (net : NetOutcome)
    (firmwareVersion : String) :
    Except String (Option GitHubRelease) × Option (List GitHubRelease) × Bool :=
  match fetchReleases cache net with
  | (.ok releases, cache1, fetched) =>
    (.ok (releases.find? (fun r => r.tag_name == firmwareVersion)), cache1, fetched)
  | (.error msg, cache1, fetched) => (.error msg, cache1, fetched)

/-- GitHubService.getPatchedImageAsset from services/github.ts. -/
def getPatchedImageAsset (release : GitHubRelease) : Option GitHubAsset :=
  release.assets.find? (fun a => a.name == "magisk_patched_init_boot.img")

/-- GitHubService.getStockImageAsset from services/github.ts. -/
def getStockImageAsset (release : GitHubRelease) : Option GitHubAsset :=
  release.assets.find? (fun a => a.name == "init_boot.img")

/-- GitHubService.clearCache from services/github.ts. -/
def clearCache : Option (List GitHubRelease) := none

/-! Download service (services/download.ts, the multi-proxy variant) -/

/-- A byte buffer (JS Blob content). -/
abbrev Blob := List Nat

structure DownloadProgress where
  loaded : Nat
  total : Nat
deriving Repr, DecidableEq

/-- An HTTP response as the downloader observes it. The body bytes arrive as
the chunk list, in order; hasStream is false when response.body is null (the
non-streaming fallback, which yields the same bytes in one piece); bodyThrow
models the body stream or blob call rejecting with the given message after
the listed chunks were delivered. contentLength is the parsed Content-Length
header if present. The display-only percentage field of DownloadProgress (a
float) is omitted; the claims concern loaded/total and the assembled bytes. -/
structure HttpResponse where
  ok : Bool
  status : Nat
  contentLength : Option Nat
  hasStream : Bool
  chunks : List (List Nat)
  bodyThrow : Option String
deriving Repr, DecidableEq

/-- The reader loop of downloadWithProgress: consume the chunks in arrival
order, appending each to the accumulator and bumping the loaded counter, and
record the progress callback payload fired after each chunk. -/
def readLoop (total : Nat) :
    List (List Nat) → List (List Nat) → Nat →
    List (List Nat) × Nat × List DownloadProgress
  | [], acc, loaded => (acc, loaded, [])
  | c :: rest, acc, loaded =>
    let loaded1 := loaded + c.length
    let (accF, lF, evs) := readLoop total rest (acc ++ [c]) loaded1
    (accF, lF, ⟨loaded1, total⟩ :: evs)

/-- downloadWithProgress from services/download.ts: read the Content-Length
header (0 when absent), then either stream the body chunk by chunk with a
progress callback per chunk, or fall back to one whole-body blob call; the
final blob is the concatenation of the chunks in arrival order. A body
failure rejects with its message (after the progress events already fired). -/
def downloadWithProgress (resp : HttpResponse) :
    Except String (Blob × List DownloadProgress) :=
  let total := resp.contentLength.getD 0
  if resp.hasStream then
    let r := readLoop total resp.chunks [] 0
    match resp.bodyThrow with
    | some m => .error m
    | none => .ok (r.1.flatten, r.2.2)
  else
    match resp.bodyThrow with
    | some m => .error m
    | none => .ok (resp.chunks.flatten, [])

/-- What fetching one candidate URL yields: a response, or a thrown transport
error. -/
inductive FetchOutcome where
  | resp (r : HttpResponse)
  | netThrow (msg : String)
deriving Repr, DecidableEq

/-- The loop body of downloadAsset from services/download.ts, with the running
lastError value explicit: try each proxy candidate in order; a thrown fetch, a
non-ok status (the code throws the status as the message) or a failing body
sets lastError and moves on; when the candidates run out, throw the download
error built from the last failure message. -/
def downloadAssetGo (fetchF : String → FetchOutcome) (url : String) :
    List (String → String) → Option String → Except String Blob
  | [], lastError =>
    .error ("Download failed: " ++ lastError.getD "All proxies failed")
  | mk :: rest, _ =>
    match fetchF (mk url) with
    | .netThrow m => downloadAssetGo fetchF url rest (some m)
    | .resp r =>
      if r.ok then
        match downloadWithProgress r with
        | .ok (b, _) => .ok b
        | .error m => downloadAssetGo fetchF url rest (some m)
      else downloadAssetGo fetchF url rest (some (toString r.status))

/-- downloadAsset from services/download.ts, generalized over the ordered
candidate proxy list (the source constant CORS_PROXIES is one such list) and
over the fetch behaviour. -/
def downloadAsset (fetchF : String → FetchOutcome)
    (proxies : List (String → String)) (url : String) : Except String Blob :=
  downloadAssetGo fetchF url proxies none

/-! Fastboot service (services/fastboot.ts) -/

/-- FastbootService.isBootloaderUnlocked applied to the getVariable result for
the variable named unlocked: true exactly on the literal string yes; the
service maps every retrieval failure to null before this comparison. -/
def isBootloaderUnlocked (unlockedVar : Option String) : Bool :=
  unlockedVar == some "yes"

/-! Flow controller (App.tsx) -/

inductive FlashState where
  | IDLE
  | BROWSER_UNSUPPORTED
  | WAITING_ADB_CONNECT
  | ADB_CONNECTING
  | ADB_CONNECTED
  | DETECTING_FIRMWARE
  | FIRMWARE_DETECTED
  | FETCHING_RELEASES
  | RELEASE_NOT_FOUND
  | RELEASE_MATCHED
  | DOWNLOADING_IMAGE
  | DOWNLOAD_COMPLETE
  | CONFIRMING_FLASH
  | REBOOTING_BOOTLOADER
  | WAITING_FASTBOOT
  | FASTBOOT_CONNECTING
  | FASTBOOT_CONNECTED
  | FLASHING
  | FLASH_COMPLETE
  | REBOOTING_SYSTEM
  | SUCCESS
  | ERROR
deriving Repr, DecidableEq

structure DeviceInfo where
  model : String
  firmwareVersion : String
  serial : Option String
deriving Repr, DecidableEq

structure FlashProgress where
  action : String
  partition : String
deriving Repr, DecidableEq

/-- AppState from types.ts. addLog prepends a wall-clock timestamp to each log
line in the source; the timestamp is omitted here. The float progress fraction
of FlashProgress is omitted (display only). -/
structure AppState where
  state : FlashState
  deviceInfo : Option DeviceInfo
  matchedRelease : Option GitHubRelease
  imageBlob : Option Blob
  downloadProgress : Option DownloadProgress
  flashProgress : Option FlashProgress
  error : Option String
  logs : List String
deriving Repr, DecidableEq

def initialState : AppState :=
  ⟨.IDLE, none, none, none, none, none, none, []⟩

/-- The extra partial-AppState argument of setState: for each field, none
means the field is absent from the update and keeps its previous value. -/
structure StateUpdate where
  deviceInfo : Option (Option DeviceInfo)
  matchedRelease : Option (Option GitHubRelease)
  imageBlob : Option (Option Blob)
  downloadProgress : Option (Option DownloadProgress)
  flashProgress : Option (Option FlashProgress)
  error : Option (Option String)
deriving Repr, DecidableEq

def emptyUpdate : StateUpdate := ⟨none, none, none, none, none, none⟩

def applyOpt (cur : α) : Option α → α
  | none => cur
  | some v => v

/-- setState(state, extra) from App.tsx: spread the previous state, set the
state tag, and overwrite exactly the fields present in the extra record. -/
def applyUpdate (st : AppState) (s : FlashState) (u : StateUpdate) : AppState :=
  { state := s
    deviceInfo := applyOpt st.deviceInfo u.deviceInfo
    matchedRelease := applyOpt st.matchedRelease u.matchedRelease
    imageBlob := applyOpt st.imageBlob u.imageBlob
    downloadProgress := applyOpt st.downloadProgress u.downloadProgress
    flashProgress := applyOpt st.flashProgress u.flashProgress
    error := applyOpt st.error u.error
    logs := st.logs }

/-- The suspending (awaited) transport/network operations the controller
issues, one constructor per service call site in App.tsx. -/
inductive AsyncOp where
  | adbConnect
  | adbGetDeviceInfo
  | ghFindRelease (q : String)
  | download (url : String)
  | adbRebootBootloader
  | adbDisconnect
  | fbConnect
  | fbGetVar (nm : String)
  | fbFlash (p : String)
  | fbReboot
deriving Repr, DecidableEq

/-- Payload of a successfully settled operation. -/
inductive OpVal where
  | unit
  | str (v : Option String)
  | info (d : DeviceInfo)
  | release (r : Option GitHubRelease)
  | blob (b : Blob)
deriving Repr, DecidableEq

/-- Settlement of an awaited operation: resolved with a payload, or rejected.
A rejected none models a thrown non-Error value, which the controller maps to
the message Unknown error, exactly as its catch blocks do. -/
inductive OpResult where
  | success (v : OpVal)
  | thrown (msg : Option String)
deriving Repr, DecidableEq

/-- Progress callback firings that happen while an operation is suspended;
the two callbacks in App.tsx mutate only downloadProgress / flashProgress. -/
inductive ProgressEv where
  | dl (p : DownloadProgress)
  | fl (p : FlashProgress)
deriving Repr, DecidableEq

/-- How one awaited operation settles: the progress callbacks fired during the
suspension, then the final result. -/
structure Settlement where
  during : List ProgressEv
  result : OpResult
deriving Repr, DecidableEq

/-- Resumption-style embedding of the async controller handlers: a program
either finishes, performs a synchronous setState or addLog and continues, or
suspends on one awaited operation and continues with its settlement. The par
constructor expresses issuing two operations before either settles; it is
expressible in the model but never used by the controller programs below,
which is what the single-flight claim is about. -/
inductive Prog where
  | done
  | setSt (s : FlashState) (u : StateUpdate) (k : Prog)
  | addLog (m : String) (k : Prog)
  | suspendOp (op : AsyncOp) (k : OpResult → Prog)
  | par (op1 op2 : AsyncOp) (k : OpResult → OpResult → Prog)

/-- Observable events of a controller run. -/
inductive Ev where
  | setEv (s : FlashState)
  | logEv (m : String)
  | startEv (op : AsyncOp)
  | progEv (p : ProgressEv)
  | settleEv (op : AsyncOp) (r : OpResult)
deriving Repr, DecidableEq

def applyProgress (st : AppState) : ProgressEv → AppState
  | .dl p => { st with downloadProgress := some p }
  | .fl p => { st with flashProgress := some p }

def applyProgressList (st : AppState) (ps : List ProgressEv) : AppState :=
  ps.foldl applyProgress st

/-- Execute a program against an oracle assigning a settlement to each
successive awaited operation; returns the final AppState and the event trace. -/
def runP (σ : Nat → Settlement) : Prog → Nat → AppState → AppState × List Ev
  | .done, _, st => (st, [])
  | .setSt s u k, n, st =>
    let r := runP σ k n (applyUpdate st s u)
    (r.1, .setEv s :: r.2)
  | .addLog m k, n, st =>
    let r := runP σ k n { st with logs := st.logs ++ [m] }
    (r.1, .logEv m :: r.2)
  | .suspendOp op k, n, st =>
    let s := σ n
    let r := runP σ (k s.result) (n + 1) (applyProgressList st s.during)
    (r.1, .startEv op :: (s.during.map .progEv ++ .settleEv op s.result :: r.2))
  | .par op1 op2 k, n, st =>
    let s1 := σ n
    let s2 := σ (n + 1)
    let r := runP σ (k s1.result s2.result) (n + 2)
      (applyProgressList (applyProgressList st s1.during) s2.during)
    (r.1, .startEv op1 :: .startEv op2 ::
      .settleEv op1 s1.result :: .settleEv op2 s2.result :: r.2)

/-- The message the catch blocks extract from a thrown value:
its message when it is an Error, the literal Unknown error otherwise. -/
def errMsg (m : Option String) : String := m.getD "Unknown error"

/-- Whether the pattern occurs at the head of the haystack. -/
def startsWithList : List Char → List Char → Bool
  | _, [] => true
  | [], _ :: _ => false
  | x :: xs, y :: ys => x = y && startsWithList xs ys

/-- Whether the pattern occurs contiguously anywhere in the haystack. -/
def hasSubList (hay pat : List Char) : Bool :=
  match hay with
  | [] => pat.isEmpty
  | _ :: rest => startsWithList hay pat || hasSubList rest pat

/-- JS String.prototype.includes as used by the catch blocks: does the
message contain the pattern as a contiguous substring. -/
def includesSub (s pat : String) : Bool := hasSubList s.toList pat.toList

/-- setError from App.tsx: log the error, then enter ERROR with the message.
No other field of the run state is touched. -/
def setErrorProg (msg : String) (k : Prog) : Prog :=
  .addLog ("Error: " ++ msg) (.setSt .ERROR ⟨none, none, none, none, none, some (some msg)⟩ k)

/-- checkBrowser from App.tsx, parameterized by the WebUSB capability flag. -/
def checkBrowserProg (supported : Bool) (k : Bool → Prog) : Prog :=
  if supported then .addLog "WebUSB is supported" (k true)
  else .addLog "WebUSB is not supported in this browser"
    (.setSt .BROWSER_UNSUPPORTED emptyUpdate (k false))

/-- detectFirmware from App.tsx: enter DETECTING_FIRMWARE, await the device
info read, validate the firmware version and model, then either enter
FIRMWARE_DETECTED carrying the device info (continuing with it) or fail. -/
def detectFirmwareProg (k : Option DeviceInfo → Prog) : Prog :=
  .setSt .DETECTING_FIRMWARE emptyUpdate <|
  .addLog "Reading device information..." <|
  .suspendOp .adbGetDeviceInfo fun r =>
    match r with
    | .success (.info d) =>
      .addLog ("Device: " ++ d.model) <|
      .addLog ("Firmware: " ++ d.firmwareVersion) <|
      (match parseVersion d.firmwareVersion with
       | none =>
         setErrorProg "This tool only supports OnePlus Open (CPH2551)" (k none)
       | some parsed =>
         if isOnePlusOpen parsed.modelCode then
           .setSt .FIRMWARE_DETECTED ⟨some (some d), none, none, none, none, none⟩
             (k (some d))
         else
           setErrorProg "This tool only supports OnePlus Open (CPH2551)" (k none))
    | .success _ =>
      setErrorProg ("Failed to read device info: " ++ errMsg none) (k none)
    | .thrown m =>
      setErrorProg ("Failed to read device info: " ++ errMsg m) (k none)

/-- findRelease from App.tsx: enter FETCHING_RELEASES, await the catalog
lookup, then branch to RELEASE_NOT_FOUND, a missing-asset error, or
RELEASE_MATCHED carrying the matched release. -/
def findReleaseProg (d : DeviceInfo) (k : Prog) : Prog :=
  .setSt .FETCHING_RELEASES emptyUpdate <|
  .addLog "Fetching available releases..." <|
  .suspendOp (.ghFindRelease d.firmwareVersion) fun r =>
    match r with
    | .success (.release none) =>
      .addLog ("No release found for firmware " ++ d.firmwareVersion)
        (.setSt .RELEASE_NOT_FOUND emptyUpdate k)
    | .success (.release (some rel)) =>
      (match getPatchedImageAsset rel with
       | none => setErrorProg "Release found but no patched image available" k
       | some asset =>
         .addLog ("Found matching release: " ++ rel.tag_name) <|
         .addLog ("Patched image: " ++ asset.name ++ " (" ++ formatFileSize asset.size ++ ")") <|
         .setSt .RELEASE_MATCHED ⟨none, some (some rel), none, none, none, none⟩ k)
    | .success _ =>
      setErrorProg ("Failed to fetch releases: " ++ errMsg none) k
    | .thrown m =>
      setErrorProg ("Failed to fetch releases: " ++ errMsg m) k

/-- The catch block of connectAdb from App.tsx. -/
def adbCatch (m : Option String) : Prog :=
  let message := errMsg m
  if includesSub message "No device selected" then
    .setSt .WAITING_ADB_CONNECT emptyUpdate
      (.addLog "Device selection cancelled" .done)
  else setErrorProg ("ADB connection failed: " ++ message) .done

/-- connectAdb from App.tsx: browser check, then ADB_CONNECTING, await the ADB
connect, and on success chain automatically into firmware detection and
release lookup; a dismissed device picker returns to WAITING_ADB_CONNECT,
any other failure is fatal. -/
def connectAdbProg (supported : Bool) : Prog :=
  checkBrowserProg supported fun ok =>
    if ok then
      .setSt .ADB_CONNECTING emptyUpdate <|
      .addLog "Connecting to device via ADB..." <|
      .suspendOp .adbConnect fun r =>
        match r with
        | .success _ =>
          .addLog "ADB connection established" <|
          .setSt .ADB_CONNECTED emptyUpdate <|
          detectFirmwareProg fun di =>
            match di with
            | some d => findReleaseProg d .done
            | none => .done
        | .thrown m => adbCatch m
    else .done

/-- downloadImage from App.tsx, with the matchedRelease value the handler
reads from the run state passed as a parameter: guard on release and asset
presence, enter DOWNLOADING_IMAGE with a zeroed progress record, await the
download (whose progress callback rewrites downloadProgress), then either
store the blob and clear the progress record, or fail with the thrown
message. -/
def downloadImageProg (matchedRelease : Option GitHubRelease) : Prog :=
  match matchedRelease with
  | none => .done
  | some release =>
    match getPatchedImageAsset release with
    | none => .done
    | some asset =>
      .setSt .DOWNLOADING_IMAGE ⟨none, none, none, some (some ⟨0, asset.size⟩), none, none⟩ <|
      .addLog "Downloading patched image..." <|
      .suspendOp (.download asset.browser_download_url) fun r =>
        match r with
        | .success (.blob b) =>
          .addLog ("Download complete: " ++ formatFileSize b.length) <|
          .setSt .DOWNLOAD_COMPLETE ⟨none, none, some (some b), some none, none, none⟩ .done
        | .success _ =>
          setErrorProg ("Download failed: " ++ errMsg none) .done
        | .thrown m =>
          setErrorProg ("Download failed: " ++ errMsg m) .done

/-- confirmFlash from App.tsx. -/
def confirmFlashProg : Prog := .setSt .CONFIRMING_FLASH emptyUpdate .done

/-- rebootToBootloader from App.tsx: enter REBOOTING_BOOTLOADER, await the
privileged reboot, await the ADB disconnect (still in the same phase), then
WAITING_FASTBOOT; any thrown step is fatal. -/
def rebootToBootloaderProg : Prog :=
  .setSt .REBOOTING_BOOTLOADER emptyUpdate <|
  .addLog "Rebooting to bootloader..." <|
  .suspendOp .adbRebootBootloader fun r =>
    match r with
    | .success _ =>
      .suspendOp .adbDisconnect fun r2 =>
        match r2 with
        | .success _ =>
          .addLog "Device is rebooting to bootloader" <|
          .addLog "Please wait for the device to enter fastboot mode..." <|
          .setSt .WAITING_FASTBOOT emptyUpdate .done
        | .thrown m => setErrorProg ("Failed to reboot: " ++ errMsg m) .done
    | .thrown m => setErrorProg ("Failed to reboot: " ++ errMsg m) .done

/-- rebootSystem from App.tsx: enter REBOOTING_SYSTEM, await the fastboot
reboot, and enter SUCCESS whether the call resolves or rejects; the rejection
is deliberately downgraded to a log line (the device is commonly gone before
the transport can acknowledge). -/
def rebootSystemProg : Prog :=
  .setSt .REBOOTING_SYSTEM emptyUpdate <|
  .addLog "Rebooting to system..." <|
  .suspendOp .fbReboot fun r =>
    match r with
    | .success _ =>
      .addLog "Device is rebooting" (.setSt .SUCCESS emptyUpdate .done)
    | .thrown _ =>
      .addLog "Reboot command sent" (.setSt .SUCCESS emptyUpdate .done)

/-- flashImage from App.tsx, with the imageBlob value the handler reads from
the run state passed as a parameter: guard on blob presence, enter FLASHING
with a preparing progress record, await the flash (whose progress callback
rewrites flashProgress), then clear the record, log, and chain automatically
into the system reboot; a thrown flash is fatal. -/
def flashImageProg (imageBlob : Option Blob) : Prog :=
  match imageBlob with
  | none => .done
  | some _ =>
    .setSt .FLASHING ⟨none, none, none, none, some (some ⟨"preparing", "init_boot"⟩), none⟩ <|
    .addLog "Flashing init_boot partition..." <|
    .suspendOp (.fbFlash "init_boot") fun r =>
      match r with
      | .success _ =>
        .addLog "Flash complete!" <|
        .setSt .FLASH_COMPLETE ⟨none, none, none, none, some none, none⟩ <|
        rebootSystemProg
      | .thrown m => setErrorProg ("Flash failed: " ++ errMsg m) .done

/-- The shared catch block of connectFastboot from App.tsx. -/
def fbCatch (m : Option String) : Prog :=
  let message := errMsg m
  if includesSub message "No device selected" || includesSub message "cancelled" then
    .setSt .WAITING_FASTBOOT emptyUpdate (.addLog "Device selection cancelled" .done)
  else setErrorProg ("Fastboot connection failed: " ++ message) .done

/-- The value FastbootService.getVariable hands the controller for a settled
variable read: the payload on a resolved read, null on any retrieval failure
or unexpected payload (the service catches every failure and returns null). -/
def fbVarOf : OpResult → Option String
  | .success (.str v) => v
  | _ => none

/-- connectFastboot from App.tsx, with the synchronous isConnected getter
value and the imageBlob the chained flash step reads passed as parameters:
enter FASTBOOT_CONNECTING, await the fastboot connect, check connectivity,
await the unlocked variable read, and either stop on a locked bootloader or
enter FASTBOOT_CONNECTED and chain automatically into the flash. -/
def connectFastbootProg (isConnectedAfter : Bool) (imageBlob : Option Blob) : Prog :=
  .setSt .FASTBOOT_CONNECTING emptyUpdate <|
  .addLog "Connecting to device in fastboot mode..." <|
  .suspendOp .fbConnect fun r =>
    match r with
    | .thrown m => fbCatch m
    | .success _ =>
      if isConnectedAfter then
        .suspendOp (.fbGetVar "unlocked") fun r2 =>
          if isBootloaderUnlocked (fbVarOf r2) then
            .addLog "Fastboot connection established" <|
            .addLog "Bootloader is unlocked" <|
            .setSt .FASTBOOT_CONNECTED emptyUpdate <|
            flashImageProg imageBlob
          else
            setErrorProg "Bootloader is locked. Please unlock it first before flashing." .done
      else fbCatch (some "Failed to establish fastboot connection")

/-- The service handles the controller owns, with the GitHub release cache as
the service state that survives handler invocations. The two transport
services carry no controller-visible state beyond being fresh objects. -/
structure Services where
  adbFresh : Bool
  fastbootFresh : Bool
  githubCache : Option (List GitHubRelease)
deriving Repr, DecidableEq

/-- reset from App.tsx: construct a new AdbService and a new FastbootService,
and reset the app state to the initial state. The GitHubService ref is left
untouched and clearCache is not called, so its release cache survives. -/
def reset (svc : Services) (_app : AppState) : Services × AppState :=
  (⟨true, true, svc.githubCache⟩, initialState)

/-! Sample data used by witnesses and counterexamples. -/

def sampleAsset : GitHubAsset :=
  ⟨"magisk_patched_init_boot.img", "https-asset-url", 100⟩

def sampleRelease : GitHubRelease :=
  ⟨"CPH2551_15.0.0.822(EX01)", "release", "2024-01-01", [sampleAsset]⟩

/-! Claim C8: findMatching returns the first exactly-equal tag. -/

/-- The matching rule as the spec words it: exact string equality against each
entry's tag, first match wins, null when nothing matches. Stated from the
spec, for comparison with the code's find-based lookup. -/
def firstExactMatch (q : String) : List GitHubRelease → Option GitHubRelease
  | [] => none
  | r :: rest => if r.tag_name = q then some r else firstExactMatch q rest

theorem find_eq_firstExactMatch (q : String) (rs : List GitHubRelease) :
    rs.find? (fun r => r.tag_name == q) = firstExactMatch q rs := by
  induction rs with
  | nil => rfl
  | cons r rest ih =>
    by_cases h : r.tag_name = q
    · simp [List.find?, firstExactMatch, h]
    · have hb : (r.tag_name == q) = false := beq_eq_false_iff_ne.mpr h
      simp [List.find?, firstExactMatch, h, hb, ih]

theorem firstExactMatch_tag (q : String) (rs : List GitHubRelease) (r : GitHubRelease)
    (h : firstExactMatch q rs = some r) : r.tag_name = q := by
  induction rs with
  | nil => simp [firstExactMatch] at h
  | cons x rest ih =>
    by_cases hx : x.tag_name = q
    · simp [firstExactMatch, hx] at h
      subst h
      exact hx
    · simp [firstExactMatch, hx] at h
      exact ih h

/-- Claim C8: with the release list available (cached), findMatchingRelease
returns exactly the first entry whose tag_name equals the query byte for byte,
and null when no entry matches; it never returns an entry whose tag differs
from the query in any character. -/
theorem C8_find_matching (q : String) (rs : List GitHubRelease) (net : NetOutcome) :
    (findMatchingRelease (some rs) net q).1 = .ok (firstExactMatch q rs)
    ∧ (∀ r, firstExactMatch q rs = some r → r.tag_name = q)
    ∧ (firstExactMatch q rs = none ↔ ∀ r ∈ rs, r.tag_name ≠ q) := by
  refine ⟨?_, fun r h => firstExactMatch_tag q rs r h, ?_⟩
  · simp [findMatchingRelease, fetchReleases, find_eq_firstExactMatch]
  · induction rs with
    | nil => simp [firstExactMatch]
    | cons x rest ih =>
      by_cases hx : x.tag_name = q
      · simp [firstExactMatch, hx]
      · simp [firstExactMatch, hx, ih]

/-- Witness for C8 at a concrete query and release list. -/
theorem C8_witness : sampleRelease.tag_name = "CPH2551_15.0.0.822(EX01)" :=
  (C8_find_matching "CPH2551_15.0.0.822(EX01)" [sampleRelease]
    (.netThrow "unused")).2.1 sampleRelease (by decide)

/-! Claims C5 and C10: the release cache. -/

/-- The operations one run can perform on the GitHubService. -/
inductive GhOp where
  | fetchRel (net : NetOutcome)
  | findRel (net : NetOutcome) (q : String)
  | clearC
deriving Repr, DecidableEq

/-- Effect of one GitHubService call on the releasesCache field. -/
def ghStep (cache : Option (List GitHubRelease)) : GhOp → Option (List GitHubRelease)
  | .fetchRel net => (fetchReleases cache net).2.1
  | .findRel net q => (findMatchingRelease cache net q).2.1
  | .clearC => clearCache

def ghRunOps (cache : Option (List GitHubRelease)) (ops : List GhOp) :
    Option (List GitHubRelease) :=
  ops.foldl ghStep cache

theorem ghStep_preserves (c : List GitHubRelease) (op : GhOp) (h : op ≠ .clearC) :
    ghStep (some c) op = some c := by
  cases op with
  | fetchRel net => simp [ghStep, fetchReleases]
  | findRel net q => simp [ghStep, findMatchingRelease, fetchReleases]
  | clearC => exact absurd rfl h

/-- Counterexample to C5 as stated: the controller's full reset does not make
the clearCache call; it leaves the GitHubService release cache exactly as it
was, so an explicit clearCache on reset does not happen in the code. -/
theorem C5_counterexample :
    (reset ⟨false, false, some [sampleRelease]⟩ initialState).1.githubCache
      = some [sampleRelease]
    ∧ (reset ⟨false, false, some [sampleRelease]⟩ initialState).1.githubCache
      ≠ clearCache := by
  constructor
  · rfl
  · simp [reset, clearCache]

/-- Claim C5 as amended: a fetchReleases call that finds a cached list returns
it unchanged without a network fetch; every subsequent GitHubService call that
is not clearCache keeps the cache intact (so repeated lookups in one run keep
returning the cached list); findMatchingRelease on a cached list performs no
fetch; clearCache is the only operation that unsets the cache; and the
controller's full reset leaves the cache untouched (it never calls
clearCache). -/
theorem C5_cache_behavior :
    (∀ (c : List GitHubRelease) (net : NetOutcome),
      fetchReleases (some c) net = (.ok c, some c, false))
    ∧ (∀ (c : List GitHubRelease) (ops : List GhOp),
        (∀ op ∈ ops, op ≠ GhOp.clearC) → ghRunOps (some c) ops = some c)
    ∧ (∀ (c : List GitHubRelease) (net : NetOutcome) (q : String),
        (findMatchingRelease (some c) net q).2.2 = false
        ∧ (findMatchingRelease (some c) net q).2.1 = some c)
    ∧ clearCache = none
    ∧ (∀ (svc : Services) (app : AppState),
        (reset svc app).1.githubCache = svc.githubCache) := by
  refine ⟨fun c net => rfl, ?_, fun c net q => ⟨rfl, rfl⟩, rfl, fun svc app => rfl⟩
  intro c ops h
  induction ops with
  | nil => rfl
  | cons op rest ih =>
    have h1 : op ≠ GhOp.clearC := h op (List.mem_cons_self op rest)
    have h2 : ∀ o ∈ rest, o ≠ GhOp.clearC := fun o ho => h o (List.mem_cons_of_mem op ho)
    show ghRunOps (ghStep (some c) op) rest = some c
    rw [ghStep_preserves c op h1]
    exact ih h2

/-- Witness for C5 at a concrete cache value and operation sequence. -/
theorem C5_witness :
    ghRunOps (some [sampleRelease])
      [.fetchRel (.netThrow "offline"), .findRel (.httpError 500 "err") "q"]
      = some [sampleRelease] :=
  C5_cache_behavior.2.1 [sampleRelease]
    [.fetchRel (.netThrow "offline"), .findRel (.httpError 500 "err") "q"]
    (by decide)

/-- Classifier for a failed fetch outcome (non-ok response or thrown fetch). -/
def netFails : NetOutcome → Bool
  | .success _ => false
  | .httpError _ _ => true
  | .netThrow _ => true

/-- Claim C10: a failed fetchReleases (non-ok response or thrown fetch) leaves
the cache unset and reports an error; the cache is assigned only by a fully
successful fetch; and every call made with an empty cache performs the network
request (so after a failure the next call re-fetches rather than returning a
poisoned cache). -/
theorem C10_cache_unset_on_failure :
    (∀ net : NetOutcome, netFails net = true →
      (∃ m, (fetchReleases none net).1 = .error m)
      ∧ (fetchReleases none net).2.1 = none)
    ∧ (∀ (net : NetOutcome) (rs : List GitHubRelease),
        (fetchReleases none net).2.1 = some rs → net = .success rs)
    ∧ (∀ net : NetOutcome, (fetchReleases none net).2.2 = true) := by
  refine ⟨fun net h => ?_, fun net rs h => ?_, fun net => ?_⟩
  · cases net with
    | success rs => simp [netFails] at h
    | httpError s t => exact ⟨⟨_, rfl⟩, rfl⟩
    | netThrow m => exact ⟨⟨m, rfl⟩, rfl⟩
  · cases net with
    | success rs2 =>
      simp [fetchReleases] at h
      rw [h]
    | httpError s t => simp [fetchReleases] at h
    | netThrow m => simp [fetchReleases] at h
  · cases net <;> rfl

/-- Witness for C10 at a concrete failing fetch outcome. -/
theorem C10_witness :
    (∃ m, (fetchReleases none (.httpError 500 "Server Error")).1 = .error m)
    ∧ (fetchReleases none (.httpError 500 "Server Error")).2.1 = none :=
  C10_cache_unset_on_failure.1 (.httpError 500 "Server Error") (by decide)

/-! Claim C9: streaming assembly and monotone progress. -/

/-- Running totals of the chunk lengths starting from an initial loaded
count: the loaded values the progress callback receives. -/
def partialSums (l : Nat) : List (List Nat) → List Nat
  | [] => []
  | c :: rest => (l + c.length) :: partialSums (l + c.length) rest

theorem partialSums_chain (cs : List (List Nat)) :
    ∀ l, List.Chain' (· ≤ ·) (partialSums l cs) := by
  induction cs with
  | nil => intro l; simp [partialSums]
  | cons c rest ih =>
    intro l
    rw [partialSums]
    refine List.chain'_cons'.mpr ⟨?_, ih (l + c.length)⟩
    intro b hb
    cases rest with
    | nil => simp [partialSums] at hb
    | cons c2 r2 =>
      simp [partialSums] at hb
      omega

theorem readLoop_spec (total : Nat) (cs : List (List Nat)) :
    ∀ (acc : List (List Nat)) (l : Nat),
      (readLoop total cs acc l).1 = acc ++ cs
      ∧ (readLoop total cs acc l).2.1 = l + (cs.map List.length).sum
      ∧ (readLoop total cs acc l).2.2.map DownloadProgress.loaded = partialSums l cs
      ∧ (∀ e ∈ (readLoop total cs acc l).2.2, e.total = total) := by
  induction cs with
  | nil => intro acc l; simp [readLoop, partialSums]
  | cons c rest ih =>
    intro acc l
    have h := ih (acc ++ [c]) (l + c.length)
    refine ⟨?_, ?_, ?_, ?_⟩
    · simp [readLoop, h.1]
    · simp [readLoop, h.2.1]; omega
    · simp [readLoop, h.2.2.1, partialSums]
    · intro e he
      simp [readLoop] at he
      rcases he with he | he
      · rw [he]
      · exact h.2.2.2 e he

/-- Claim C9: when the body streams and completes, the assembled buffer is the
concatenation of the chunks in arrival order, its length is the sum of the
chunk lengths, and the loaded values passed to the successive progress
callbacks are monotonically non-decreasing (each callback also carries the
declared total). -/
theorem C9_stream_assembly (resp : HttpResponse)
    (hs : resp.hasStream = true) (hb : resp.bodyThrow = none) :
    ∃ evs, downloadWithProgress resp = .ok (resp.chunks.flatten, evs)
      ∧ resp.chunks.flatten.length = (resp.chunks.map List.length).sum
      ∧ evs.map DownloadProgress.loaded = partialSums 0 resp.chunks
      ∧ List.Chain' (· ≤ ·) (evs.map DownloadProgress.loaded)
      ∧ (∀ e ∈ evs, e.total = resp.contentLength.getD 0) := by
  have h := readLoop_spec (resp.contentLength.getD 0) resp.chunks [] 0
  refine ⟨(readLoop (resp.contentLength.getD 0) resp.chunks [] 0).2.2, ?_, ?_, ?_, ?_, h.2.2.2⟩
  · simp [downloadWithProgress, hs, hb, h.1]
  · exact List.length_flatten resp.chunks
  · exact h.2.2.1
  · rw [h.2.2.1]; exact partialSums_chain resp.chunks 0

/-- Witness for C9 at a concrete two-chunk stream. -/
theorem C9_witness :
    ∃ evs,
      downloadWithProgress ⟨true, 200, some 5, true, [[1, 2], [3]], none⟩
        = .ok ([1, 2, 3], evs)
      ∧ evs.map DownloadProgress.loaded = [2, 3] := by
  rcases C9_stream_assembly ⟨true, 200, some 5, true, [[1, 2], [3]], none⟩ rfl rfl
    with ⟨evs, h1, _, h3, _⟩
  exact ⟨evs, h1, by rw [h3]; decide⟩

/-! Claim C3: proxy candidates tried in order, last failure reported. -/

/-- What one proxy candidate yields end to end: the assembled blob when the
fetch resolves, the status is ok, and the body completes; otherwise the
failure message the loop records (thrown fetch message, the non-ok status
rendered as the thrown message, or the body failure message). -/
def candidateResult (fetchF : String → FetchOutcome) (url : String)
    (mk : String → String) : Except String Blob :=
  match fetchF (mk url) with
  | .netThrow m => .error m
  | .resp r =>
    if r.ok then
      match downloadWithProgress r with
      | .ok (b, _) => .ok b
      | .error m => .error m
    else .error (toString r.status)

def isOkE : Except String Blob → Bool
  | .ok _ => true
  | .error _ => false

/-- Failure message of the last candidate, when the list is nonempty and its
last candidate fails. -/
def lastMsg (fetchF : String → FetchOutcome) (url : String)
    (proxies : List (String → String)) : Option String :=
  match proxies.getLast? with
  | none => none
  | some mk =>
    match candidateResult fetchF url mk with
    | .error m => some m
    | .ok _ => none

/-- The fetch policy exactly as the claim words it: the first succeeding
candidate in list order wins; when every candidate fails the result is a
download error carrying the last candidate's failure message (with the
source's fallback text for an empty candidate list). Stated from the claim,
for comparison with the loop in the code. -/
def downloadAssetClaim (fetchF : String → FetchOutcome)
    (proxies : List (String → String)) (url : String) : Except String Blob :=
  match proxies.find? (fun mk => isOkE (candidateResult fetchF url mk)) with
  | some mk => candidateResult fetchF url mk
  | none =>
    match lastMsg fetchF url proxies with
    | some m => .error ("Download failed: " ++ m)
    | none => .error ("Download failed: " ++ "All proxies failed")

theorem go_cons_err (fetchF : String → FetchOutcome) (url : String)
    (mk : String → String) (rest : List (String → String)) (le : Option String)
    (m : String) (h : candidateResult fetchF url mk = .error m) :
    downloadAssetGo fetchF url (mk :: rest) le = downloadAssetGo fetchF url rest (some m) := by
  cases hf : fetchF (mk url) with
  | netThrow m2 =>
    simp only [candidateResult, hf, Except.error.injEq] at h
    simp only [downloadAssetGo, hf, h]
  | resp r =>
    simp only [candidateResult, hf] at h
    by_cases hok : r.ok = true
    · rw [if_pos hok] at h
      cases hdw : downloadWithProgress r with
      | ok bp =>
        rcases bp with ⟨b, evs⟩
        rw [hdw] at h
        simp at h
      | error m2 =>
        rw [hdw] at h
        simp only [Except.error.injEq] at h
        simp only [downloadAssetGo, hf, hok, if_true, hdw, h]
    · rw [if_neg hok] at h
      simp only [Except.error.injEq] at h
      simp only [Bool.not_eq_true] at hok
      simp only [downloadAssetGo, hf, hok, Bool.false_eq_true, if_false, h]

theorem go_cons_ok (fetchF : String → FetchOutcome) (url : String)
    (mk : String → String) (rest : List (String → String)) (le : Option String)
    (b : Blob) (h : candidateResult fetchF url mk = .ok b) :
    downloadAssetGo fetchF url (mk :: rest) le = .ok b := by
  cases hf : fetchF (mk url) with
  | netThrow m2 =>
    simp only [candidateResult, hf] at h
    exact absurd h (by simp)
  | resp r =>
    simp only [candidateResult, hf] at h
    by_cases hok : r.ok = true
    · rw [if_pos hok] at h
      cases hdw : downloadWithProgress r with
      | ok bp =>
        rcases bp with ⟨b2, evs⟩
        rw [hdw] at h
        simp only [Except.ok.injEq] at h
        simp only [downloadAssetGo, hf, hok, if_true, hdw, h]
      | error m2 =>
        rw [hdw] at h
        simp at h
    · rw [if_neg hok] at h
      simp at h

theorem getLast?_some_mem {α : Type} (l : List α) (y : α) (h : l.getLast? = some y) :
    y ∈ l := by
  induction l with
  | nil => simp at h
  | cons a rest ih =>
    cases rest with
    | nil => simp at h; simp [h]
    | cons b r2 =>
      rw [List.getLast?_cons_cons] at h
      exact List.mem_cons_of_mem a (ih h)

theorem go_eq_claim (fetchF : String → FetchOutcome) (url : String) :
    ∀ (proxies : List (String → String)) (le : Option String),
      downloadAssetGo fetchF url proxies le =
        match proxies.find? (fun mk => isOkE (candidateResult fetchF url mk)) with
        | some mk => candidateResult fetchF url mk
        | none =>
          match lastMsg fetchF url proxies with
          | some m => .error ("Download failed: " ++ m)
          | none => .error ("Download failed: " ++ le.getD "All proxies failed") := by
  intro proxies
  induction proxies with
  | nil => intro le; simp [downloadAssetGo, lastMsg]
  | cons mk rest ih =>
    intro le
    cases hc : candidateResult fetchF url mk with
    | ok b =>
      rw [go_cons_ok fetchF url mk rest le b hc]
      simp [List.find?, hc, isOkE]
    | error m =>
      rw [go_cons_err fetchF url mk rest le m hc]
      rw [ih (some m)]
      have hnot : isOkE (candidateResult fetchF url mk) = false := by rw [hc]; rfl
      have hcons : List.find? (fun mk2 => isOkE (candidateResult fetchF url mk2)) (mk :: rest)
          = List.find? (fun mk2 => isOkE (candidateResult fetchF url mk2)) rest := by
        simp [List.find?, hnot]
      rw [hcons]
      cases hfind : rest.find? (fun mk2 => isOkE (candidateResult fetchF url mk2)) with
      | some mk2 => rfl
      | none =>
        cases rest with
        | nil => simp [lastMsg, hc]
        | cons x xs =>
          have hlmeq : lastMsg fetchF url (mk :: x :: xs) = lastMsg fetchF url (x :: xs) := by
            simp only [lastMsg, List.getLast?_cons_cons]
          rw [hlmeq]
          have hy : ∃ y, (x :: xs).getLast? = some y := by
            cases h2 : (x :: xs).getLast? with
            | none => rw [List.getLast?_eq_none_iff] at h2; simp at h2
            | some y => exact ⟨y, rfl⟩
          rcases hy with ⟨y, hy⟩
          have hymem : y ∈ x :: xs := getLast?_some_mem (x :: xs) y hy
          have hall := List.find?_eq_none.mp hfind y hymem
          cases hcy : candidateResult fetchF url y with
          | ok b2 => rw [hcy] at hall; simp [isOkE] at hall
          | error m2 => simp only [lastMsg, hy, hcy]

/-- Claim C3: for every url and every ordered candidate list, downloadAsset
equals the claim-side policy: candidates are tried strictly in list order, any
failing candidate (thrown fetch, non-success status, or failing body) is
skipped in favour of the next, the first success is returned, and when every
candidate fails the thrown download error carries the last underlying
failure's message. -/
theorem C3_download_order (fetchF : String → FetchOutcome)
    (proxies : List (String → String)) (url : String) :
    downloadAsset fetchF proxies url = downloadAssetClaim fetchF proxies url := by
  unfold downloadAsset downloadAssetClaim
  rw [go_eq_claim fetchF url proxies none]
  rfl

/-! Claim C2: exact characterization of parseVersion. -/

theorem takeWhile_all_append {p : Char → Bool} (xs : List Char) (y : Char) (ys : List Char)
    (hxs : ∀ x ∈ xs, p x = true) (hy : p y = false) :
    (xs ++ y :: ys).takeWhile p = xs ∧ (xs ++ y :: ys).dropWhile p = y :: ys := by
  induction xs with
  | nil => simp [List.takeWhile_cons, List.dropWhile_cons, hy]
  | cons a as ih =>
    have ha : p a = true := hxs a (List.mem_cons_self a as)
    have ih2 := ih (fun x hx => hxs x (List.mem_cons_of_mem a hx))
    simp [List.takeWhile_cons, List.dropWhile_cons, ha, ih2.1, ih2.2]

theorem mem_takeWhile_p {p : Char → Bool} (l : List Char) :
    ∀ x ∈ l.takeWhile p, p x = true := by
  induction l with
  | nil => intro x hx; simp at hx
  | cons a as ih =>
    intro x hx
    rw [List.takeWhile_cons] at hx
    by_cases ha : p a = true
    · rw [if_pos ha] at hx
      rcases List.mem_cons.mp hx with h | h
      · rw [h]; exact ha
      · exact ih x h
    · rw [if_neg ha] at hx
      simp at hx

theorem digits1_of_shape {m : List Char} (hm : m ≠ [])
    (hall : ∀ x ∈ m, Char.isDigit x = true)
    {y : Char} (hy : Char.isDigit y = false) (ys : List Char) :
    digits1 (m ++ y :: ys) = some (m, y :: ys) := by
  have h := takeWhile_all_append m y ys hall hy
  have hne : ((m ++ y :: ys).takeWhile Char.isDigit).isEmpty = false := by
    rw [h.1]
    cases m with
    | nil => exact absurd rfl hm
    | cons a as => rfl
  simp [digits1, hne, h.1, h.2]
  exact hm

theorem digits1_some {cs m r : List Char} (h : digits1 cs = some (m, r)) :
    m ≠ [] ∧ (∀ x ∈ m, Char.isDigit x = true) ∧ cs = m ++ r := by
  unfold digits1 at h
  by_cases he : (cs.takeWhile Char.isDigit).isEmpty = true
  · rw [if_pos he] at h; simp at h
  · rw [if_neg he] at h
    simp only [Option.some.injEq, Prod.mk.injEq] at h
    refine ⟨?_, ?_, ?_⟩
    · rw [← h.1]
      intro hnil
      rw [hnil] at he
      exact he rfl
    · rw [← h.1]; exact mem_takeWhile_p cs
    · rw [← h.1, ← h.2]
      exact (List.takeWhile_append_dropWhile Char.isDigit cs).symm

theorem region1_of_shape {m : List Char} (hm : m ≠ [])
    (hall : ∀ x ∈ m, upperAlnumChar x = true)
    {y : Char} (hy : upperAlnumChar y = false) (ys : List Char) :
    region1 (m ++ y :: ys) = some (m, y :: ys) := by
  have h := takeWhile_all_append m y ys hall hy
  have hne : ((m ++ y :: ys).takeWhile upperAlnumChar).isEmpty = false := by
    rw [h.1]
    cases m with
    | nil => exact absurd rfl hm
    | cons a as => rfl
  simp [region1, hne, h.1, h.2]
  exact hm

theorem region1_some {cs m r : List Char} (h : region1 cs = some (m, r)) :
    m ≠ [] ∧ (∀ x ∈ m, upperAlnumChar x = true) ∧ cs = m ++ r := by
  unfold region1 at h
  by_cases he : (cs.takeWhile upperAlnumChar).isEmpty = true
  · rw [if_pos he] at h; simp at h
  · rw [if_neg he] at h
    simp only [Option.some.injEq, Prod.mk.injEq] at h
    refine ⟨?_, ?_, ?_⟩
    · rw [← h.1]
      intro hnil
      rw [hnil] at he
      exact he rfl
    · rw [← h.1]; exact mem_takeWhile_p cs
    · rw [← h.1, ← h.2]
      exact (List.takeWhile_append_dropWhile upperAlnumChar cs).symm

theorem expectChar_some {c : Char} {cs r : List Char} (h : expectChar c cs = some r) :
    cs = c :: r := by
  cases cs with
  | nil => simp [expectChar] at h
  | cons x rest =>
    simp only [expectChar] at h
    by_cases hx : x = c
    · rw [if_pos hx] at h
      injection h with h2
      rw [hx, h2]
    · rw [if_neg hx] at h
      exact absurd h (by simp)

theorem expectChar_cons (c : Char) (r : List Char) : expectChar c (c :: r) = some r := by
  simp [expectChar]

/-- The shape of the strings the regex accepts, with the capture groups as
parameters: the literal CPH prefix, the model digits, an underscore, the four
dot-separated version groups, and the region in parentheses ending the
string. -/
def versionShape (m a b c d reg : List Char) : List Char :=
  'C' :: 'P' :: 'H' ::
    (m ++ '_' :: (a ++ '.' :: (b ++ '.' :: (c ++ '.' :: (d ++ '(' :: (reg ++ [')']))))))

theorem parseDots_of_shape (a b c d : List Char)
    (ha : a ≠ []) (hb : b ≠ []) (hc : c ≠ []) (hd : d ≠ [])
    (haa : ∀ x ∈ a, Char.isDigit x = true) (hba : ∀ x ∈ b, Char.isDigit x = true)
    (hca : ∀ x ∈ c, Char.isDigit x = true) (hda : ∀ x ∈ d, Char.isDigit x = true)
    {y : Char} (hy : Char.isDigit y = false) (ys : List Char) :
    parseDots (a ++ '.' :: (b ++ '.' :: (c ++ '.' :: (d ++ y :: ys))))
      = some (a ++ '.' :: b ++ '.' :: c ++ '.' :: d, y :: ys) := by
  have h1 := digits1_of_shape ha haa (by decide : Char.isDigit '.' = false)
    (b ++ '.' :: (c ++ '.' :: (d ++ y :: ys)))
  have h2 := digits1_of_shape hb hba (by decide : Char.isDigit '.' = false)
    (c ++ '.' :: (d ++ y :: ys))
  have h3 := digits1_of_shape hc hca (by decide : Char.isDigit '.' = false)
    (d ++ y :: ys)
  have h4 := digits1_of_shape hd hda hy ys
  simp [parseDots, h1, h2, h3, h4, expectChar_cons]

theorem parseDots_some {r0 v r11 : List Char} (h : parseDots r0 = some (v, r11)) :
    ∃ a b c d, a ≠ [] ∧ b ≠ [] ∧ c ≠ [] ∧ d ≠ []
      ∧ (∀ x ∈ a, Char.isDigit x = true) ∧ (∀ x ∈ b, Char.isDigit x = true)
      ∧ (∀ x ∈ c, Char.isDigit x = true) ∧ (∀ x ∈ d, Char.isDigit x = true)
      ∧ v = a ++ '.' :: b ++ '.' :: c ++ '.' :: d
      ∧ r0 = a ++ '.' :: (b ++ '.' :: (c ++ '.' :: (d ++ r11))) := by
  unfold parseDots at h
  cases h1 : digits1 r0 with
  | none => rw [h1] at h; simp at h
  | some x1 =>
  rcases x1 with ⟨a, r5⟩
  rw [h1] at h
  simp only [] at h
  cases h2 : expectChar '.' r5 with
  | none => rw [h2] at h; simp at h
  | some r6 =>
  rw [h2] at h
  simp only [] at h
  cases h3 : digits1 r6 with
  | none => rw [h3] at h; simp at h
  | some x2 =>
  rcases x2 with ⟨b, r7⟩
  rw [h3] at h
  simp only [] at h
  cases h4 : expectChar '.' r7 with
  | none => rw [h4] at h; simp at h
  | some r8 =>
  rw [h4] at h
  simp only [] at h
  cases h5 : digits1 r8 with
  | none => rw [h5] at h; simp at h
  | some x3 =>
  rcases x3 with ⟨c, r9⟩
  rw [h5] at h
  simp only [] at h
  cases h6 : expectChar '.' r9 with
  | none => rw [h6] at h; simp at h
  | some r10 =>
  rw [h6] at h
  simp only [] at h
  cases h7 : digits1 r10 with
  | none => rw [h7] at h; simp at h
  | some x4 =>
  rcases x4 with ⟨d, r11x⟩
  rw [h7] at h
  simp only [Option.some.injEq, Prod.mk.injEq] at h
  obtain ⟨ha, haa, hr0⟩ := digits1_some h1
  have hr5 := expectChar_some h2
  obtain ⟨hb, hba, hr6⟩ := digits1_some h3
  have hr7 := expectChar_some h4
  obtain ⟨hc, hca, hr8⟩ := digits1_some h5
  have hr9 := expectChar_some h6
  obtain ⟨hd, hda, hr10⟩ := digits1_some h7
  refine ⟨a, b, c, d, ha, hb, hc, hd, haa, hba, hca, hda, h.1.symm, ?_⟩
  rw [hr0, hr5, hr6, hr7, hr8, hr9, hr10, h.2]

theorem parseRegion_of_shape (reg : List Char) (hreg : reg ≠ [])
    (hra : ∀ x ∈ reg, upperAlnumChar x = true) :
    parseRegion ('(' :: (reg ++ [')'])) = some reg := by
  have h1 := region1_of_shape hreg hra (by decide : upperAlnumChar ')' = false) []
  simp [parseRegion, expectChar_cons, h1]

theorem parseRegion_some {r11 reg : List Char} (h : parseRegion r11 = some reg) :
    reg ≠ [] ∧ (∀ x ∈ reg, upperAlnumChar x = true)
      ∧ r11 = '(' :: (reg ++ [')']) := by
  unfold parseRegion at h
  cases h1 : expectChar '(' r11 with
  | none => rw [h1] at h; simp at h
  | some r12 =>
  rw [h1] at h
  simp only [] at h
  cases h2 : region1 r12 with
  | none => rw [h2] at h; simp at h
  | some x1 =>
  rcases x1 with ⟨rg, r13⟩
  rw [h2] at h
  simp only [] at h
  cases h3 : expectChar ')' r13 with
  | none => rw [h3] at h; simp at h
  | some r14 =>
  rw [h3] at h
  cases r14 with
  | cons z zs => simp at h
  | nil =>
  simp only [Option.some.injEq] at h
  obtain ⟨hne, hall, hr12⟩ := region1_some h2
  have hr13 := expectChar_some h3
  subst h
  refine ⟨hne, hall, ?_⟩
  rw [expectChar_some h1, hr12, hr13]

theorem parseGroups_of_shape (m a b c d reg : List Char)
    (hm : m ≠ []) (ha : a ≠ []) (hb : b ≠ []) (hc : c ≠ []) (hd : d ≠ [])
    (hreg : reg ≠ [])
    (hma : ∀ x ∈ m, Char.isDigit x = true) (haa : ∀ x ∈ a, Char.isDigit x = true)
    (hba : ∀ x ∈ b, Char.isDigit x = true) (hca : ∀ x ∈ c, Char.isDigit x = true)
    (hda : ∀ x ∈ d, Char.isDigit x = true)
    (hra : ∀ x ∈ reg, upperAlnumChar x = true) :
    parseGroups (versionShape m a b c d reg)
      = some ('C' :: 'P' :: 'H' :: m, (a ++ '.' :: b ++ '.' :: c ++ '.' :: d, reg)) := by
  have h1 := digits1_of_shape hm hma (by decide : Char.isDigit '_' = false)
    (a ++ '.' :: (b ++ '.' :: (c ++ '.' :: (d ++ '(' :: (reg ++ [')'])))))
  have h2 := parseDots_of_shape a b c d ha hb hc hd haa hba hca hda
    (by decide : Char.isDigit '(' = false) (reg ++ [')'])
  have h3 := parseRegion_of_shape reg hreg hra
  simp [parseGroups, versionShape, expectChar_cons, h1, h2, h3]

theorem parseGroups_some {cs : List Char} {mo v reg : List Char}
    (h : parseGroups cs = some (mo, v, reg)) :
    ∃ m a b c d, m ≠ [] ∧ a ≠ [] ∧ b ≠ [] ∧ c ≠ [] ∧ d ≠ [] ∧ reg ≠ []
      ∧ (∀ x ∈ m, Char.isDigit x = true) ∧ (∀ x ∈ a, Char.isDigit x = true)
      ∧ (∀ x ∈ b, Char.isDigit x = true) ∧ (∀ x ∈ c, Char.isDigit x = true)
      ∧ (∀ x ∈ d, Char.isDigit x = true) ∧ (∀ x ∈ reg, upperAlnumChar x = true)
      ∧ mo = 'C' :: 'P' :: 'H' :: m
      ∧ v = a ++ '.' :: b ++ '.' :: c ++ '.' :: d
      ∧ cs = versionShape m a b c d reg := by
  unfold parseGroups at h
  cases h1 : expectChar 'C' cs with
  | none => rw [h1] at h; simp at h
  | some r0 =>
  rw [h1] at h
  simp only [] at h
  cases h2 : expectChar 'P' r0 with
  | none => rw [h2] at h; simp at h
  | some r1 =>
  rw [h2] at h
  simp only [] at h
  cases h3 : expectChar 'H' r1 with
  | none => rw [h3] at h; simp at h
  | some r2 =>
  rw [h3] at h
  simp only [] at h
  cases h4 : digits1 r2 with
  | none => rw [h4] at h; simp at h
  | some x1 =>
  rcases x1 with ⟨m, r3⟩
  rw [h4] at h
  simp only [] at h
  cases h5 : expectChar '_' r3 with
  | none => rw [h5] at h; simp at h
  | some r4 =>
  rw [h5] at h
  simp only [] at h
  cases h6 : parseDots r4 with
  | none => rw [h6] at h; simp at h
  | some x2 =>
  rcases x2 with ⟨vv, r11⟩
  rw [h6] at h
  simp only [] at h
  cases h7 : parseRegion r11 with
  | none => rw [h7] at h; simp at h
  | some rg =>
  rw [h7] at h
  simp only [Option.some.injEq, Prod.mk.injEq] at h
  obtain ⟨hmo, hv, hrg⟩ := h
  obtain ⟨hm, hma, hr2⟩ := digits1_some h4
  obtain ⟨a, b, c, d, ha, hb, hc, hd, haa, hba, hca, hda, hvv, hr4⟩ := parseDots_some h6
  obtain ⟨hreg, hra, hr11⟩ := parseRegion_some h7
  refine ⟨m, a, b, c, d, hm, ha, hb, hc, hd, ?_, hma, haa, hba, hca, hda, ?_,
    hmo.symm, ?_, ?_⟩
  · rw [← hrg]; exact hreg
  · rw [← hrg]; exact hra
  · rw [← hv]; exact hvv
  · rw [expectChar_some h1, expectChar_some h2, expectChar_some h3, hr2,
      expectChar_some h5, hr4, hr11, versionShape, ← hrg]

/-- The parse result the regex groups dictate for a string of the accepted
shape. -/
def shapeResult (s : String) (m a b c d reg : List Char) : ParsedVersion :=
  ⟨String.mk ('C' :: 'P' :: 'H' :: m),
    String.mk (a ++ '.' :: b ++ '.' :: c ++ '.' :: d), String.mk reg, s⟩

/-- Claim C2 as amended: parseVersion succeeds exactly on the strings of the
shape CPH(digits)_(digits).(digits).(digits).(digits)((uppercase letters or
digits)) with every group nonempty; on those it returns the captured model
code, version, and region, with fullVersion the raw input; on every other
string it returns null. -/
theorem C2_parse_correct (s : String) :
    (∀ m a b c d reg : List Char,
      m ≠ [] → a ≠ [] → b ≠ [] → c ≠ [] → d ≠ [] → reg ≠ [] →
      (∀ x ∈ m, Char.isDigit x = true) → (∀ x ∈ a, Char.isDigit x = true) →
      (∀ x ∈ b, Char.isDigit x = true) → (∀ x ∈ c, Char.isDigit x = true) →
      (∀ x ∈ d, Char.isDigit x = true) → (∀ x ∈ reg, upperAlnumChar x = true) →
      s.toList = versionShape m a b c d reg →
      parseVersion s = some (shapeResult s m a b c d reg))
    ∧ (∀ p, parseVersion s = some p →
        ∃ m a b c d reg, m ≠ [] ∧ a ≠ [] ∧ b ≠ [] ∧ c ≠ [] ∧ d ≠ [] ∧ reg ≠ []
          ∧ (∀ x ∈ m, Char.isDigit x = true) ∧ (∀ x ∈ a, Char.isDigit x = true)
          ∧ (∀ x ∈ b, Char.isDigit x = true) ∧ (∀ x ∈ c, Char.isDigit x = true)
          ∧ (∀ x ∈ d, Char.isDigit x = true) ∧ (∀ x ∈ reg, upperAlnumChar x = true)
          ∧ s.toList = versionShape m a b c d reg
          ∧ p = shapeResult s m a b c d reg) := by
  constructor
  · intro m a b c d reg hm ha hb hc hd hreg hma haa hba hca hda hra hs
    unfold parseVersion
    rw [hs, parseGroups_of_shape m a b c d reg hm ha hb hc hd hreg hma haa hba hca hda hra]
    rfl
  · intro p hp
    unfold parseVersion at hp
    cases hg : parseGroups s.toList with
    | none => rw [hg] at hp; simp at hp
    | some t =>
      rcases t with ⟨mo, v, reg⟩
      rw [hg] at hp
      simp only [Option.some.injEq] at hp
      obtain ⟨m, a, b, c, d, hm, ha, hb, hc, hd, hr, hma, haa, hba, hca, hda,
        hra, hmo, hv, hcs⟩ := parseGroups_some hg
      refine ⟨m, a, b, c, d, reg, hm, ha, hb, hc, hd, hr, hma, haa, hba, hca,
        hda, hra, hcs, ?_⟩
      rw [← hp, shapeResult, hmo, hv]

/-- Witness for C2 at the concrete identity from the spec scenario. -/
theorem C2_witness :
    parseVersion "CPH2551_15.0.0.822(EX01)"
      = some ⟨"CPH2551", "15.0.0.822", "EX01", "CPH2551_15.0.0.822(EX01)"⟩ :=
  (C2_parse_correct "CPH2551_15.0.0.822(EX01)").1
    ['2', '5', '5', '1'] ['1', '5'] ['0'] ['0'] ['8', '2', '2'] ['E', 'X', '0', '1']
    (by decide) (by decide) (by decide) (by decide) (by decide) (by decide)
    (by decide) (by decide) (by decide) (by decide) (by decide) (by decide)
    (by decide)

/-- The accepted shape exactly as the claim words it: a model code (a
nonempty run of uppercase letters or digits), an underscore, four
dot-separated numeric segments, and an uppercase region code in parentheses.
Stated from the claim, for comparison with the shape the code accepts. -/
def claimShape (m a b c d reg : List Char) : List Char :=
  m ++ '_' :: (a ++ '.' :: (b ++ '.' :: (c ++ '.' :: (d ++ '(' :: (reg ++ [')'])))))

/-- Counterexample to C2 as stated: the string AB1234_1.0.0.0(EX01) has the
claimed shape (model code AB1234, four numeric segments, uppercase region
EX01), yet parseVersion rejects it, because the regex additionally demands
that the model code start with the literal CPH. -/
theorem C2_counterexample :
    "AB1234_1.0.0.0(EX01)".toList
      = claimShape ['A', 'B', '1', '2', '3', '4'] ['1'] ['0'] ['0'] ['0']
          ['E', 'X', '0', '1']
    ∧ (∀ x ∈ (['A', 'B', '1', '2', '3', '4'] : List Char), upperAlnumChar x = true)
    ∧ (∀ x ∈ (['1', '0'] : List Char), Char.isDigit x = true)
    ∧ (∀ x ∈ (['E', 'X', '0', '1'] : List Char), upperAlnumChar x = true)
    ∧ parseVersion "AB1234_1.0.0.0(EX01)" = none := by
  refine ⟨by decide, by decide, by decide, by decide, ?_⟩
  decide

/-! Claim C1: single-flight discipline of the controller. -/

/-- The controller phase that represents each suspending operation being in
progress, read off App.tsx: every awaited call happens after the setState
that enters the phase shown here and before the next one. The privileged
reboot and the ADB disconnect are both awaited in REBOOTING_BOOTLOADER; the
fastboot connect and the unlocked-variable read are both awaited in
FASTBOOT_CONNECTING. -/
def opState : AsyncOp → FlashState
  | .adbConnect => .ADB_CONNECTING
  | .adbGetDeviceInfo => .DETECTING_FIRMWARE
  | .ghFindRelease _ => .FETCHING_RELEASES
  | .download _ => .DOWNLOADING_IMAGE
  | .adbRebootBootloader => .REBOOTING_BOOTLOADER
  | .adbDisconnect => .REBOOTING_BOOTLOADER
  | .fbConnect => .FASTBOOT_CONNECTING
  | .fbGetVar _ => .FASTBOOT_CONNECTING
  | .fbFlash _ => .FLASHING
  | .fbReboot => .REBOOTING_SYSTEM

/-- One step of the single-flight check over a trace, tracking the operation
currently outstanding: starting an operation demands none outstanding,
settling demands exactly the outstanding one, and while one is outstanding
no state transition or log may happen; only progress callbacks may fire.
Returns none on a violation. -/
def asyncStep : Option AsyncOp → Ev → Option (Option AsyncOp)
  | none, .startEv op => some (some op)
  | none, .settleEv _ _ => none
  | none, _ => some none
  | some _, .startEv _ => none
  | some op, .settleEv op2 _ => if op2 = op then some none else none
  | some _, .setEv _ => none
  | some _, .logEv _ => none
  | some p, .progEv _ => some (some p)

def singleFlightFrom : Option AsyncOp → List Ev → Bool
  | p, [] => p.isNone
  | p, e :: rest =>
    match asyncStep p e with
    | none => false
    | some p2 => singleFlightFrom p2 rest

/-- A trace is single-flight when, starting and ending with no outstanding
operation, every start happens with nothing outstanding and is settled before
anything else happens. -/
def singleFlight (t : List Ev) : Bool := singleFlightFrom none t

/-- Check that every operation starts only while the controller is already in
the phase representing it, tracking the phase set by the latest transition. -/
def stateOkFrom : Option FlashState → List Ev → Bool
  | _, [] => true
  | _, .setEv s :: rest => stateOkFrom (some s) rest
  | cur, .startEv op :: rest => (cur == some (opState op)) && stateOkFrom cur rest
  | cur, _ :: rest => stateOkFrom cur rest

def stateOk (t : List Ev) : Bool := stateOkFrom none t

/-- Discipline of a program with respect to the phase it believes the machine
is in: it never uses the par construct, and it suspends an operation only
when the current phase is the one representing that operation. -/
def Disciplined : Option FlashState → Prog → Prop
  | _, .done => True
  | _, .setSt s _ k => Disciplined (some s) k
  | c, .addLog _ k => Disciplined c k
  | c, .suspendOp op k => c = some (opState op) ∧ ∀ r, Disciplined c (k r)
  | _, .par _ _ _ => False

theorem singleFlightFrom_progs (op : AsyncOp) (ps : List ProgressEv) (l : List Ev) :
    singleFlightFrom (some op) (ps.map Ev.progEv ++ l) = singleFlightFrom (some op) l := by
  induction ps with
  | nil => rfl
  | cons p rest ih => simp [singleFlightFrom, asyncStep, ih]

theorem stateOkFrom_progs (c : Option FlashState) (ps : List ProgressEv) (l : List Ev) :
    stateOkFrom c (ps.map Ev.progEv ++ l) = stateOkFrom c l := by
  induction ps with
  | nil => rfl
  | cons p rest ih => simp [stateOkFrom, ih]

theorem disciplined_checks (p : Prog) :
    ∀ (c : Option FlashState), Disciplined c p →
      ∀ (σ : Nat → Settlement) (n : Nat) (st : AppState),
        singleFlightFrom none (runP σ p n st).2 = true
        ∧ stateOkFrom c (runP σ p n st).2 = true := by
  induction p with
  | done =>
    intro c hd σ n st
    exact ⟨rfl, rfl⟩
  | setSt s u k ih =>
    intro c hd σ n st
    simp only [Disciplined] at hd
    have h := ih (some s) hd σ n (applyUpdate st s u)
    constructor
    · simp [runP, singleFlightFrom, asyncStep, h.1]
    · simp [runP, stateOkFrom, h.2]
  | addLog m k ih =>
    intro c hd σ n st
    simp only [Disciplined] at hd
    have h := ih c hd σ n { st with logs := st.logs ++ [m] }
    constructor
    · simp [runP, singleFlightFrom, asyncStep, h.1]
    · simp [runP, stateOkFrom, h.2]
  | suspendOp op k ih =>
    intro c hd σ n st
    simp only [Disciplined] at hd
    obtain ⟨hc, hk⟩ := hd
    have h := ih ((σ n).result) c (hk ((σ n).result)) σ (n + 1)
      (applyProgressList st (σ n).during)
    constructor
    · simp only [runP, singleFlightFrom, asyncStep, singleFlightFrom_progs]
      simp [singleFlightFrom, asyncStep, h.1]
    · simp only [runP, stateOkFrom]
      rw [hc]
      simp only [beq_self_eq_true, Bool.true_and]
      rw [stateOkFrom_progs]
      simp only [stateOkFrom]
      rw [← hc]
      exact h.2
  | par op1 op2 k ih =>
    intro c hd
    simp only [Disciplined] at hd

theorem setError_disciplined (msg : String) (k : Prog)
    (hk : ∀ c, Disciplined c k) (c : Option FlashState) :
    Disciplined c (setErrorProg msg k) :=
  hk (some .ERROR)

theorem done_disciplined (c : Option FlashState) : Disciplined c .done := trivial

theorem rebootSystem_disciplined (c : Option FlashState) :
    Disciplined c rebootSystemProg := by
  refine ⟨rfl, fun r => ?_⟩
  cases r with
  | success v => exact True.intro
  | thrown m => exact True.intro

theorem flashImage_disciplined (c : Option FlashState) (blob : Option Blob) :
    Disciplined c (flashImageProg blob) := by
  cases blob with
  | none => exact True.intro
  | some b =>
    refine ⟨rfl, fun r => ?_⟩
    cases r with
    | success v => exact rebootSystem_disciplined (some .FLASH_COMPLETE)
    | thrown m =>
      exact setError_disciplined ("Flash failed: " ++ errMsg m) .done
        done_disciplined (some .FLASHING)

theorem fbCatch_disciplined (m : Option String) (c : Option FlashState) :
    Disciplined c (fbCatch m) := by
  simp only [fbCatch]
  split
  · exact True.intro
  · exact setError_disciplined _ _ done_disciplined _

theorem adbCatch_disciplined (m : Option String) (c : Option FlashState) :
    Disciplined c (adbCatch m) := by
  simp only [adbCatch]
  split
  · exact True.intro
  · exact setError_disciplined _ _ done_disciplined _

theorem connectFastboot_disciplined (c : Option FlashState)
    (conn : Bool) (blob : Option Blob) :
    Disciplined c (connectFastbootProg conn blob) := by
  refine ⟨rfl, fun r => ?_⟩
  cases r with
  | thrown m => exact fbCatch_disciplined m _
  | success v =>
    cases conn with
    | false =>
      exact fbCatch_disciplined (some "Failed to establish fastboot connection")
        (some .FASTBOOT_CONNECTING)
    | true =>
      refine ⟨rfl, fun r2 => ?_⟩
      by_cases hv : isBootloaderUnlocked (fbVarOf r2) = true
      · show Disciplined (some .FASTBOOT_CONNECTING)
          (if isBootloaderUnlocked (fbVarOf r2) = true then
            Prog.addLog "Fastboot connection established"
              (Prog.addLog "Bootloader is unlocked"
                (Prog.setSt .FASTBOOT_CONNECTED emptyUpdate (flashImageProg blob)))
          else
            setErrorProg
              "Bootloader is locked. Please unlock it first before flashing." Prog.done)
        rw [if_pos hv]
        exact flashImage_disciplined (some .FASTBOOT_CONNECTED) blob
      · show Disciplined (some .FASTBOOT_CONNECTING)
          (if isBootloaderUnlocked (fbVarOf r2) = true then
            Prog.addLog "Fastboot connection established"
              (Prog.addLog "Bootloader is unlocked"
                (Prog.setSt .FASTBOOT_CONNECTED emptyUpdate (flashImageProg blob)))
          else
            setErrorProg
              "Bootloader is locked. Please unlock it first before flashing." Prog.done)
        rw [if_neg hv]
        exact setError_disciplined _ _ done_disciplined _

theorem rebootToBootloader_disciplined (c : Option FlashState) :
    Disciplined c rebootToBootloaderProg := by
  refine ⟨rfl, fun r => ?_⟩
  cases r with
  | success v =>
    refine ⟨rfl, fun r2 => ?_⟩
    cases r2 with
    | success v2 => exact True.intro
    | thrown m2 =>
      exact setError_disciplined ("Failed to reboot: " ++ errMsg m2) .done
        done_disciplined (some .REBOOTING_BOOTLOADER)
  | thrown m =>
    exact setError_disciplined ("Failed to reboot: " ++ errMsg m) .done
      done_disciplined (some .REBOOTING_BOOTLOADER)

theorem downloadImage_disciplined (c : Option FlashState)
    (rel : Option GitHubRelease) :
    Disciplined c (downloadImageProg rel) := by
  cases rel with
  | none => exact True.intro
  | some release =>
    cases hA : getPatchedImageAsset release with
    | none =>
      simp only [downloadImageProg, hA]
      exact True.intro
    | some asset =>
      simp only [downloadImageProg, hA]
      refine ⟨by trivial, fun r => ?_⟩
      cases r with
      | success v =>
        cases v with
        | blob b => exact True.intro
        | unit =>
          exact setError_disciplined ("Download failed: " ++ errMsg none) .done
            done_disciplined (some .DOWNLOADING_IMAGE)
        | str s =>
          exact setError_disciplined ("Download failed: " ++ errMsg none) .done
            done_disciplined (some .DOWNLOADING_IMAGE)
        | info d =>
          exact setError_disciplined ("Download failed: " ++ errMsg none) .done
            done_disciplined (some .DOWNLOADING_IMAGE)
        | release rr =>
          exact setError_disciplined ("Download failed: " ++ errMsg none) .done
            done_disciplined (some .DOWNLOADING_IMAGE)
      | thrown m =>
        exact setError_disciplined ("Download failed: " ++ errMsg m) .done
          done_disciplined (some .DOWNLOADING_IMAGE)

theorem findRelease_disciplined (c : Option FlashState) (d : DeviceInfo)
    (k : Prog) (hk : ∀ c2, Disciplined c2 k) :
    Disciplined c (findReleaseProg d k) := by
  refine ⟨rfl, fun r => ?_⟩
  cases r with
  | success v =>
    cases v with
    | release ro =>
      cases ro with
      | none => exact hk (some .RELEASE_NOT_FOUND)
      | some rel =>
        cases hA : getPatchedImageAsset rel with
        | none =>
          simp only [hA]
          exact setError_disciplined "Release found but no patched image available"
            k hk (some .FETCHING_RELEASES)
        | some asset =>
          simp only [hA]
          exact hk (some .RELEASE_MATCHED)
    | unit =>
      exact setError_disciplined ("Failed to fetch releases: " ++ errMsg none)
        k hk (some .FETCHING_RELEASES)
    | str s =>
      exact setError_disciplined ("Failed to fetch releases: " ++ errMsg none)
        k hk (some .FETCHING_RELEASES)
    | info d2 =>
      exact setError_disciplined ("Failed to fetch releases: " ++ errMsg none)
        k hk (some .FETCHING_RELEASES)
    | blob b =>
      exact setError_disciplined ("Failed to fetch releases: " ++ errMsg none)
        k hk (some .FETCHING_RELEASES)
  | thrown m =>
    exact setError_disciplined ("Failed to fetch releases: " ++ errMsg m)
      k hk (some .FETCHING_RELEASES)

theorem detectFirmware_disciplined (c : Option FlashState)
    (k : Option DeviceInfo → Prog) (hk : ∀ c2 di, Disciplined c2 (k di)) :
    Disciplined c (detectFirmwareProg k) := by
  refine ⟨rfl, fun r => ?_⟩
  cases r with
  | success v =>
    cases v with
    | info d =>
      cases hp : parseVersion d.firmwareVersion with
      | none =>
        simp only [hp]
        exact setError_disciplined "This tool only supports OnePlus Open (CPH2551)"
          (k none) (fun c2 => hk c2 none) (some .DETECTING_FIRMWARE)
      | some parsed =>
        simp only [hp]
        split
        · exact hk (some .FIRMWARE_DETECTED) (some d)
        · exact setError_disciplined "This tool only supports OnePlus Open (CPH2551)"
            (k none) (fun c2 => hk c2 none) (some .DETECTING_FIRMWARE)
    | unit =>
      exact setError_disciplined ("Failed to read device info: " ++ errMsg none)
        (k none) (fun c2 => hk c2 none) (some .DETECTING_FIRMWARE)
    | str s =>
      exact setError_disciplined ("Failed to read device info: " ++ errMsg none)
        (k none) (fun c2 => hk c2 none) (some .DETECTING_FIRMWARE)
    | release ro =>
      exact setError_disciplined ("Failed to read device info: " ++ errMsg none)
        (k none) (fun c2 => hk c2 none) (some .DETECTING_FIRMWARE)
    | blob b =>
      exact setError_disciplined ("Failed to read device info: " ++ errMsg none)
        (k none) (fun c2 => hk c2 none) (some .DETECTING_FIRMWARE)
  | thrown m =>
    exact setError_disciplined ("Failed to read device info: " ++ errMsg m)
      (k none) (fun c2 => hk c2 none) (some .DETECTING_FIRMWARE)

theorem connectAdb_disciplined (c : Option FlashState) (supported : Bool) :
    Disciplined c (connectAdbProg supported) := by
  cases supported with
  | false => exact True.intro
  | true =>
    refine ⟨rfl, fun r => ?_⟩
    cases r with
    | success v =>
      exact detectFirmware_disciplined (some .ADB_CONNECTED)
        (fun di => match di with
          | some d => findReleaseProg d .done
          | none => .done)
        (fun c2 di => by
          cases di with
          | none => exact True.intro
          | some d => exact findRelease_disciplined c2 d .done done_disciplined)
    | thrown m => exact adbCatch_disciplined m _

theorem confirmFlash_disciplined (c : Option FlashState) :
    Disciplined c confirmFlashProg := by
  simp [confirmFlashProg, Disciplined]

/-- Claim C1: every controller handler is single-flight. For every oracle,
every entry state, and every handler parameterization, the handler's event
trace (a) never starts an operation while another is outstanding, performs no
state transition or log while an operation is outstanding (only the progress
callbacks fire), and leaves no operation outstanding — so at most one
suspending transport/network operation is ever in flight and only that
operation's settlement resumes the machine; and (b) every operation starts
only when the machine is already in the phase that represents it (opState). -/
theorem C1_single_flight (σ : Nat → Settlement) (st : AppState) (n : Nat)
    (supported : Bool) (rel : Option GitHubRelease) (conn : Bool)
    (blob blob2 : Option Blob) :
    (singleFlight (runP σ (connectAdbProg supported) n st).2 = true
      ∧ stateOk (runP σ (connectAdbProg supported) n st).2 = true)
    ∧ (singleFlight (runP σ (downloadImageProg rel) n st).2 = true
      ∧ stateOk (runP σ (downloadImageProg rel) n st).2 = true)
    ∧ (singleFlight (runP σ confirmFlashProg n st).2 = true
      ∧ stateOk (runP σ confirmFlashProg n st).2 = true)
    ∧ (singleFlight (runP σ rebootToBootloaderProg n st).2 = true
      ∧ stateOk (runP σ rebootToBootloaderProg n st).2 = true)
    ∧ (singleFlight (runP σ (connectFastbootProg conn blob) n st).2 = true
      ∧ stateOk (runP σ (connectFastbootProg conn blob) n st).2 = true)
    ∧ (singleFlight (runP σ (flashImageProg blob2) n st).2 = true
      ∧ stateOk (runP σ (flashImageProg blob2) n st).2 = true)
    ∧ (singleFlight (runP σ rebootSystemProg n st).2 = true
      ∧ stateOk (runP σ rebootSystemProg n st).2 = true) :=
  ⟨disciplined_checks _ none (connectAdb_disciplined none supported) σ n st,
   disciplined_checks _ none (downloadImage_disciplined none rel) σ n st,
   disciplined_checks _ none (confirmFlash_disciplined none) σ n st,
   disciplined_checks _ none (rebootToBootloader_disciplined none) σ n st,
   disciplined_checks _ none (connectFastboot_disciplined none conn blob) σ n st,
   disciplined_checks _ none (flashImage_disciplined none blob2) σ n st,
   disciplined_checks _ none (rebootSystem_disciplined none) σ n st⟩

/-! Claims C4, C6, C7: runs of the controller handlers. -/

theorem applyProgress_imageBlob (st : AppState) (p : ProgressEv) :
    (applyProgress st p).imageBlob = st.imageBlob := by
  cases p <;> rfl

theorem applyProgress_state (st : AppState) (p : ProgressEv) :
    (applyProgress st p).state = st.state := by
  cases p <;> rfl

theorem applyProgressList_imageBlob (ps : List ProgressEv) :
    ∀ st : AppState, (applyProgressList st ps).imageBlob = st.imageBlob := by
  induction ps with
  | nil => intro st; rfl
  | cons p rest ih =>
    intro st
    show (applyProgressList (applyProgress st p) rest).imageBlob = st.imageBlob
    rw [ih, applyProgress_imageBlob]

/-- The oracle of the concrete failing download: one progress callback with 50
of 100 bytes loaded, then a rejection with message 404. -/
def c4Oracle : Nat → Settlement :=
  fun _ => ⟨[.dl ⟨50, 100⟩], .thrown (some "404")⟩

/-- Counterexample to C4 as stated: after a failed download the controller is
in ERROR, but the progress record of the failed step is not cleared — the
downloadProgress field still holds the last value the progress callback wrote
(setError sets only the state tag and the error message). -/
theorem C4_counterexample :
    (runP c4Oracle (downloadImageProg (some sampleRelease)) 0 initialState).1.state
        = .ERROR
    ∧ (runP c4Oracle (downloadImageProg (some sampleRelease)) 0
        initialState).1.downloadProgress = some ⟨50, 100⟩
    ∧ (runP c4Oracle (downloadImageProg (some sampleRelease)) 0
        initialState).1.downloadProgress ≠ none := by
  refine ⟨?_, ?_, ?_⟩ <;> decide

/-- Claim C4 as amended: whenever the download step fails (every fetch
candidate rejected, surfacing one thrown message), the controller enters the
terminal ERROR state carrying the failure message, and no partial downloaded
bytes are retained — imageBlob is assigned only by the success branch and
still holds nothing; the progress record of the failed step, however, is left
as last written rather than cleared. -/
theorem C4_error_no_partial_bytes (σ : Nat → Settlement) (st : AppState)
    (rel : GitHubRelease) (asset : GitHubAsset) (m : String) (ps : List ProgressEv)
    (hA : getPatchedImageAsset rel = some asset)
    (h0 : σ 0 = ⟨ps, .thrown (some m)⟩)
    (hblob : st.imageBlob = none) :
    (runP σ (downloadImageProg (some rel)) 0 st).1.state = .ERROR
    ∧ (runP σ (downloadImageProg (some rel)) 0 st).1.imageBlob = none
    ∧ (runP σ (downloadImageProg (some rel)) 0 st).1.error
        = some ("Download failed: " ++ m) := by
  simp only [downloadImageProg, hA, runP, h0, setErrorProg, errMsg, Option.getD]
  simp [applyUpdate, applyOpt, applyProgressList_imageBlob, hblob]

/-- Witness for the amended C4 at the concrete failing download. -/
theorem C4_witness :
    (runP c4Oracle (downloadImageProg (some sampleRelease)) 0 initialState).1.state
        = .ERROR
    ∧ (runP c4Oracle (downloadImageProg (some sampleRelease)) 0
        initialState).1.imageBlob = none
    ∧ (runP c4Oracle (downloadImageProg (some sampleRelease)) 0 initialState).1.error
        = some ("Download failed: " ++ "404") :=
  C4_error_no_partial_bytes c4Oracle initialState sampleRelease sampleAsset "404"
    [.dl ⟨50, 100⟩] (by decide) rfl rfl

/-- Claim C6: the bootloader-unlocked test is exactly equality with the
literal yes (anything else, null included, means locked), and whenever the
unlocked-variable read settles with anything other than yes during the
fastboot connection step, the controller enters the locked-bootloader error
branch and the trace contains no flash operation at all. -/
theorem C6_locked_no_flash (σ : Nat → Settlement) (st : AppState) (blob : Option Blob)
    (ps0 ps1 : List ProgressEv) (v0 : OpVal) (r1 : OpResult)
    (h0 : σ 0 = ⟨ps0, .success v0⟩) (h1 : σ 1 = ⟨ps1, r1⟩)
    (hv : fbVarOf r1 ≠ some "yes") :
    (∀ v : Option String, isBootloaderUnlocked v = true ↔ v = some "yes")
    ∧ (runP σ (connectFastbootProg true blob) 0 st).1.state = .ERROR
    ∧ (runP σ (connectFastbootProg true blob) 0 st).1.error
        = some "Bootloader is locked. Please unlock it first before flashing."
    ∧ (∀ p : String, Ev.startEv (.fbFlash p) ∉ (runP σ (connectFastbootProg true blob) 0 st).2)
    ∧ (∀ (p : String) (r : OpResult),
        Ev.settleEv (.fbFlash p) r ∉ (runP σ (connectFastbootProg true blob) 0 st).2) := by
  have hool : isBootloaderUnlocked (fbVarOf r1) = false := by
    simp [isBootloaderUnlocked]
    exact hv
  refine ⟨fun v => by simp [isBootloaderUnlocked], ?_, ?_, ?_, ?_⟩ <;>
    simp [connectFastbootProg, runP, h0, h1, hool, setErrorProg, applyUpdate, applyOpt]

/-- The oracle of the concrete locked-bootloader run: the connect resolves,
then the unlocked variable reads no. -/
def c6Oracle : Nat → Settlement :=
  fun n => if n = 0 then ⟨[], .success .unit⟩ else ⟨[], .success (.str (some "no"))⟩

/-- Witness for C6 at the concrete locked-bootloader run. -/
theorem C6_witness :
    (runP c6Oracle (connectFastbootProg true none) 0 initialState).1.state = .ERROR
    ∧ (runP c6Oracle (connectFastbootProg true none) 0 initialState).1.error
        = some "Bootloader is locked. Please unlock it first before flashing." :=
  ⟨(C6_locked_no_flash c6Oracle initialState none [] [] .unit
      (.success (.str (some "no"))) rfl rfl (by decide)).2.1,
   (C6_locked_no_flash c6Oracle initialState none [] [] .unit
      (.success (.str (some "no"))) rfl rfl (by decide)).2.2.1⟩

theorem rebootSystem_success (σ : Nat → Settlement) (st : AppState) (n : Nat) :
    (runP σ rebootSystemProg n st).1.state = .SUCCESS
    ∧ Ev.setEv .ERROR ∉ (runP σ rebootSystemProg n st).2 := by
  cases hr : (σ n).result with
  | success v =>
    constructor <;> simp [rebootSystemProg, runP, hr, applyUpdate]
  | thrown m =>
    constructor <;> simp [rebootSystemProg, runP, hr, applyUpdate]

theorem connectAdb_never_success (σ : Nat → Settlement) (st : AppState) (n : Nat)
    (supported : Bool) :
    (runP σ (connectAdbProg supported) n st).1.state ≠ .SUCCESS := by
  cases supported with
  | false => simp [connectAdbProg, checkBrowserProg, runP, applyUpdate]
  | true =>
    cases hr0 : (σ n).result with
    | thrown m =>
      simp only [connectAdbProg, checkBrowserProg, if_true, runP, hr0, adbCatch]
      split
      · simp [runP, applyUpdate]
      · simp [runP, setErrorProg, applyUpdate]
    | success v =>
      cases hr1 : (σ (n + 1)).result with
      | thrown m1 =>
        simp [connectAdbProg, checkBrowserProg, detectFirmwareProg, runP, hr0, hr1,
          setErrorProg, applyUpdate]
      | success v1 =>
        cases v1 with
        | info d =>
          cases hp : parseVersion d.firmwareVersion with
          | none =>
            simp [connectAdbProg, checkBrowserProg, detectFirmwareProg, runP, hr0,
              hr1, hp, setErrorProg, applyUpdate]
          | some parsed =>
            by_cases ho : isOnePlusOpen parsed.modelCode = true
            · cases hr2 : (σ (n + 2)).result with
              | thrown m2 =>
                simp [connectAdbProg, checkBrowserProg, detectFirmwareProg,
                  findReleaseProg, runP, hr0, hr1, hr2, hp, ho, setErrorProg, applyUpdate]
              | success v2 =>
                cases v2 with
                | release ro =>
                  cases ro with
                  | none =>
                    simp [connectAdbProg, checkBrowserProg, detectFirmwareProg,
                      findReleaseProg, runP, hr0, hr1, hr2, hp, ho, applyUpdate]
                  | some rel =>
                    cases hA : getPatchedImageAsset rel with
                    | none =>
                      simp [connectAdbProg, checkBrowserProg, detectFirmwareProg,
                        findReleaseProg, runP, hr0, hr1, hr2, hp, ho, hA,
                        setErrorProg, applyUpdate]
                    | some asset =>
                      simp [connectAdbProg, checkBrowserProg, detectFirmwareProg,
                        findReleaseProg, runP, hr0, hr1, hr2, hp, ho, hA, applyUpdate]
                | unit =>
                  simp [connectAdbProg, checkBrowserProg, detectFirmwareProg,
                    findReleaseProg, runP, hr0, hr1, hr2, hp, ho, setErrorProg, applyUpdate]
                | str s =>
                  simp [connectAdbProg, checkBrowserProg, detectFirmwareProg,
                    findReleaseProg, runP, hr0, hr1, hr2, hp, ho, setErrorProg, applyUpdate]
                | info d2 =>
                  simp [connectAdbProg, checkBrowserProg, detectFirmwareProg,
                    findReleaseProg, runP, hr0, hr1, hr2, hp, ho, setErrorProg, applyUpdate]
                | blob b =>
                  simp [connectAdbProg, checkBrowserProg, detectFirmwareProg,
                    findReleaseProg, runP, hr0, hr1, hr2, hp, ho, setErrorProg, applyUpdate]
            · simp [connectAdbProg, checkBrowserProg, detectFirmwareProg, runP, hr0,
                hr1, hp, ho, setErrorProg, applyUpdate]
        | unit =>
          simp [connectAdbProg, checkBrowserProg, detectFirmwareProg, runP, hr0, hr1,
            setErrorProg, applyUpdate]
        | str s =>
          simp [connectAdbProg, checkBrowserProg, detectFirmwareProg, runP, hr0, hr1,
            setErrorProg, applyUpdate]
        | release ro =>
          simp [connectAdbProg, checkBrowserProg, detectFirmwareProg, runP, hr0, hr1,
            setErrorProg, applyUpdate]
        | blob b =>
          simp [connectAdbProg, checkBrowserProg, detectFirmwareProg, runP, hr0, hr1,
            setErrorProg, applyUpdate]

theorem rebootToBootloader_never_success (σ : Nat → Settlement) (st : AppState)
    (n : Nat) :
    (runP σ rebootToBootloaderProg n st).1.state ≠ .SUCCESS := by
  cases hr0 : (σ n).result with
  | thrown m => simp [rebootToBootloaderProg, runP, hr0, setErrorProg, applyUpdate]
  | success v =>
    cases hr1 : (σ (n + 1)).result with
    | thrown m1 =>
      simp [rebootToBootloaderProg, runP, hr0, hr1, setErrorProg, applyUpdate]
    | success v1 =>
      simp [rebootToBootloaderProg, runP, hr0, hr1, applyUpdate]

theorem downloadImage_suppression (σ : Nat → Settlement) (st : AppState) (n : Nat)
    (rel : Option GitHubRelease) (op : AsyncOp) (m : Option String)
    (hmem : Ev.settleEv op (.thrown m) ∈ (runP σ (downloadImageProg rel) n st).2)
    (hsucc : (runP σ (downloadImageProg rel) n st).1.state = .SUCCESS) :
    op = .fbReboot := by
  cases rel with
  | none => simp [downloadImageProg, runP] at hmem
  | some release =>
    cases hA : getPatchedImageAsset release with
    | none => simp [downloadImageProg, hA, runP] at hmem
    | some asset =>
      cases hr0 : (σ n).result with
      | thrown m0 =>
        simp [downloadImageProg, hA, runP, hr0, setErrorProg, applyUpdate] at hsucc
      | success v =>
        cases v with
        | blob b =>
          simp [downloadImageProg, hA, runP, hr0, applyUpdate] at hsucc
        | unit =>
          simp [downloadImageProg, hA, runP, hr0, setErrorProg, applyUpdate] at hsucc
        | str s =>
          simp [downloadImageProg, hA, runP, hr0, setErrorProg, applyUpdate] at hsucc
        | info d =>
          simp [downloadImageProg, hA, runP, hr0, setErrorProg, applyUpdate] at hsucc
        | release rr =>
          simp [downloadImageProg, hA, runP, hr0, setErrorProg, applyUpdate] at hsucc

theorem flashImage_suppression (σ : Nat → Settlement) (st : AppState) (n : Nat)
    (blob : Option Blob) (op : AsyncOp) (m : Option String)
    (hmem : Ev.settleEv op (.thrown m) ∈ (runP σ (flashImageProg blob) n st).2)
    (hsucc : (runP σ (flashImageProg blob) n st).1.state = .SUCCESS) :
    op = .fbReboot := by
  cases blob with
  | none => simp [flashImageProg, runP] at hmem
  | some b =>
    cases hr0 : (σ n).result with
    | thrown m0 =>
      simp [flashImageProg, runP, hr0, setErrorProg, applyUpdate] at hsucc
    | success v =>
      cases hr1 : (σ (n + 1)).result with
      | thrown m1 =>
        simp only [flashImageProg, rebootSystemProg, runP, hr0, hr1] at hmem
        simp at hmem
        exact hmem.1
      | success v1 =>
        simp only [flashImageProg, rebootSystemProg, runP, hr0, hr1] at hmem
        simp at hmem

theorem connectFastboot_suppression (σ : Nat → Settlement) (st : AppState) (n : Nat)
    (conn : Bool) (blob : Option Blob) (op : AsyncOp) (m : Option String)
    (hmem : Ev.settleEv op (.thrown m) ∈ (runP σ (connectFastbootProg conn blob) n st).2)
    (hsucc : (runP σ (connectFastbootProg conn blob) n st).1.state = .SUCCESS) :
    op = .fbReboot := by
  cases hr0 : (σ n).result with
  | thrown m0 =>
    simp only [connectFastbootProg, runP, hr0, fbCatch] at hsucc
    revert hsucc
    split
    · simp [runP, applyUpdate]
    · simp [runP, setErrorProg, applyUpdate]
  | success v0 =>
    cases conn with
    | false =>
      have hcf : (includesSub (errMsg (some "Failed to establish fastboot connection"))
            "No device selected"
          || includesSub (errMsg (some "Failed to establish fastboot connection"))
            "cancelled") = false := by decide
      simp [connectFastbootProg, fbCatch, runP, hr0, hcf, setErrorProg, applyUpdate] at hsucc
    | true =>
      by_cases hunlock : isBootloaderUnlocked (fbVarOf ((σ (n + 1)).result)) = true
      · cases blob with
        | none =>
          simp [connectFastbootProg, flashImageProg, runP, hr0, hunlock, applyUpdate] at hsucc
        | some b =>
          cases hr2 : (σ (n + 2)).result with
          | thrown m2 =>
            simp [connectFastbootProg, flashImageProg, runP, hr0, hr2, hunlock,
              setErrorProg, applyUpdate] at hsucc
          | success v2 =>
            cases hr3 : (σ (n + 3)).result with
            | thrown m3 =>
              simp only [connectFastbootProg, flashImageProg, rebootSystemProg, runP,
                hr0, hr2, hr3, hunlock] at hmem
              simp at hmem
              rcases hmem with ⟨hop, hres⟩ | hmem
              · rw [← hres] at hunlock
                simp [fbVarOf, isBootloaderUnlocked] at hunlock
              · exact hmem.1
            | success v3 =>
              simp only [connectFastbootProg, flashImageProg, rebootSystemProg, runP,
                hr0, hr2, hr3, hunlock] at hmem
              simp at hmem
              rw [← hmem.2] at hunlock
              simp [fbVarOf, isBootloaderUnlocked] at hunlock
      · simp [connectFastbootProg, runP, hr0, hunlock, setErrorProg, applyUpdate] at hsucc

/-- Claim C7: a thrown settlement of the final reboot-to-system call is
treated as success — the reboot handler always ends in SUCCESS and never sets
ERROR, whether the call resolves or rejects — and this is the only failure
the controller suppresses into success: in every handler run that ends in
SUCCESS, every thrown settlement in the trace belongs to the fbReboot call
(the other handlers either never reach SUCCESS or reach it only through the
reboot chain). -/
theorem C7_reboot_suppressed :
    (∀ (σ : Nat → Settlement) (st : AppState) (n : Nat),
      (runP σ rebootSystemProg n st).1.state = .SUCCESS
      ∧ Ev.setEv .ERROR ∉ (runP σ rebootSystemProg n st).2)
    ∧ (∀ (σ : Nat → Settlement) (st : AppState) (n : Nat) (supported : Bool),
        (runP σ (connectAdbProg supported) n st).1.state ≠ .SUCCESS)
    ∧ (∀ (σ : Nat → Settlement) (st : AppState) (n : Nat),
        (runP σ rebootToBootloaderProg n st).1.state ≠ .SUCCESS)
    ∧ (∀ (σ : Nat → Settlement) (st : AppState) (n : Nat) (rel : Option GitHubRelease)
        (op : AsyncOp) (m : Option String),
        Ev.settleEv op (.thrown m) ∈ (runP σ (downloadImageProg rel) n st).2 →
        (runP σ (downloadImageProg rel) n st).1.state = .SUCCESS → op = .fbReboot)
    ∧ (∀ (σ : Nat → Settlement) (st : AppState) (n : Nat) (blob : Option Blob)
        (op : AsyncOp) (m : Option String),
        Ev.settleEv op (.thrown m) ∈ (runP σ (flashImageProg blob) n st).2 →
        (runP σ (flashImageProg blob) n st).1.state = .SUCCESS → op = .fbReboot)
    ∧ (∀ (σ : Nat → Settlement) (st : AppState) (n : Nat) (conn : Bool)
        (blob : Option Blob) (op : AsyncOp) (m : Option String),
        Ev.settleEv op (.thrown m) ∈ (runP σ (connectFastbootProg conn blob) n st).2 →
        (runP σ (connectFastbootProg conn blob) n st).1.state = .SUCCESS →
        op = .fbReboot) :=
  ⟨rebootSystem_success,
   connectAdb_never_success,
   rebootToBootloader_never_success,
   fun σ st n rel op m hmem hsucc => downloadImage_suppression σ st n rel op m hmem hsucc,
   fun σ st n blob op m hmem hsucc => flashImage_suppression σ st n blob op m hmem hsucc,
   fun σ st n conn blob op m hmem hsucc =>
     connectFastboot_suppression σ st n conn blob op m hmem hsucc⟩

/-- The oracle of the concrete run in which the flash resolves and the final
reboot-to-system call rejects because the device is already gone. -/
def c7Oracle : Nat → Settlement :=
  fun n => if n = 0 then ⟨[], .success .unit⟩ else ⟨[], .thrown (some "gone")⟩

/-- Witness for C7 at the concrete run whose reboot call rejects: the run
still ends in SUCCESS, and the suppression conjunct applied to the thrown
settlement in its trace identifies it as the fbReboot call. -/
theorem C7_witness :
    (runP c7Oracle (flashImageProg (some [1])) 0 initialState).1.state = .SUCCESS
    ∧ AsyncOp.fbReboot = .fbReboot := by
  have hs : (runP c7Oracle (flashImageProg (some [1])) 0 initialState).1.state
      = .SUCCESS := by decide
  have hm : Ev.settleEv .fbReboot (.thrown (some "gone"))
      ∈ (runP c7Oracle (flashImageProg (some [1])) 0 initialState).2 := by decide
  exact ⟨hs, C7_reboot_suppressed.2.2.2.2.1 c7Oracle initialState 0 (some [1])
    .fbReboot (some "gone") hm hs⟩

end Flasher
